import Mathlib

set_option exponentiation.threshold 2000
set_option maxRecDepth 4000

/-
Shallow embedding of the personal-finance tracker in
src/app_gerenciador_financeiro_react_tailwind.jsx.

The React component keeps six pieces of state (user, categories, entries,
expenses, goals, fixedCosts).  Because importing a JSON document replaces
any of them by arbitrary parsed JSON, every piece is modelled as a
JavaScript value tree (JSV below).  Handlers that can throw a TypeError at
runtime (spreading a non-iterable, calling .filter/.map/.reduce on a
non-array, reading a property of null/undefined) return Option, with none
modelling the exception.  The uid() helper and the current date are passed
to the handlers as explicit arguments, and the browser dialog results
(prompt/confirm) are arguments as well.
-/

namespace Myfinance

/-- Model of a JavaScript number: NaN, +Infinity, -Infinity or a finite
value.  Finite values are modelled as exact rationals; the rounding of
in-range values to the binary64 grid is not modelled, but the overflow of
out-of-range values to the infinities is (satJNum below). -/
inductive JNum where
  | nan : JNum
  | inf : JNum
  | ninf : JNum
  | fin (q : ℚ) : JNum
  deriving DecidableEq

/-- Model of a JavaScript value as it can appear in the component state:
null, undefined, booleans, numbers, strings, arrays and plain objects
(field lists; JS objects cannot hold duplicate keys, and all objects built
by the code below have distinct literal keys). -/
inductive JSV where
  | vnull : JSV
  | vundef : JSV
  | vbool (b : Bool) : JSV
  | vnum (n : JNum) : JSV
  | vstr (t : String) : JSV
  | varr (xs : List JSV) : JSV
  | vobj (fs : List (String × JSV)) : JSV

open JSV

/-- JavaScript truthiness: null, undefined, false, 0, NaN and the empty
string are falsy; every other primitive and every object/array is truthy. -/
def jsTruthy : JSV → Bool
  | vnull => false
  | vundef => false
  | vbool b => b
  | vnum JNum.nan => false
  | vnum JNum.inf => true
  | vnum JNum.ninf => true
  | vnum (JNum.fin q) => decide (q ≠ 0)
  | vstr t => decide (t ≠ (""))
  | varr _ => true
  | vobj _ => true

/-- JavaScript `a || b`. -/
def jsOr (a b : JSV) : JSV := if jsTruthy a then a else b

/-- Property lookup in an object field list (first occurrence wins, as in a
JS object, which cannot have a duplicate key); absent keys give undefined. -/
def lookupField : List (String × JSV) → String → JSV
  | [], _ => vundef
  | (k2, v) :: fs, k => if k2 = k then v else lookupField fs k

/-- JavaScript property read `v.k` for non-nullish `v`: objects look the key
up, primitives and arrays have no such data property and give undefined. -/
def jget (v : JSV) (k : String) : JSV :=
  match v with
  | vobj fs => lookupField fs k
  | _ => vundef

/-- JavaScript property read `v.k` including the nullish case: reading a
property of null or undefined throws a TypeError, modelled as none. -/
def jgetE (v : JSV) (k : String) : Option JSV :=
  match v with
  | vnull => none
  | vundef => none
  | _ => some (jget v k)

/-- Assignment `obj[k] = v` on a field list (also the meaning of a spread
`{ ...obj, k: v }` and of a duplicate key met by JSON.parse): the first
occurrence of the key is overwritten in place, a fresh key is appended. -/
def setField : List (String × JSV) → String → JSV → List (String × JSV)
  | [], k, v => [(k, v)]
  | (k2, w) :: fs, k, v => if k2 = k then (k, v) :: fs else (k2, w) :: setField fs k v

/-- Spread `{ ...g, k: v }`.  For a (non-nullish) primitive the spread
contributes no own enumerable property, so only the new key remains; the
index keys contributed by spreading a string are not modelled (the handlers
below only reach this function with an object). -/
def jsObjSpreadSet (g : JSV) (k : String) (v : JSV) : JSV :=
  match g with
  | vobj fs => vobj (setField fs k v)
  | _ => vobj [(k, v)]

/-- Addition on JavaScript numbers: NaN is absorbing, an infinity absorbs
finite values, and opposite infinities give NaN.  (The sum of two in-range
finite doubles is kept exact rather than rounded; it cannot overflow in the
states the claims quantify over, where every stored number is in range.) -/
def jadd : JNum → JNum → JNum
  | JNum.nan, _ => JNum.nan
  | _, JNum.nan => JNum.nan
  | JNum.fin a, JNum.fin b => JNum.fin (a + b)
  | JNum.inf, JNum.ninf => JNum.nan
  | JNum.ninf, JNum.inf => JNum.nan
  | JNum.inf, _ => JNum.inf
  | JNum.ninf, _ => JNum.ninf
  | JNum.fin _, JNum.inf => JNum.inf
  | JNum.fin _, JNum.ninf => JNum.ninf

/-- Subtraction on JavaScript numbers, mirroring jadd. -/
def jsub : JNum → JNum → JNum
  | JNum.nan, _ => JNum.nan
  | _, JNum.nan => JNum.nan
  | JNum.fin a, JNum.fin b => JNum.fin (a - b)
  | JNum.inf, JNum.inf => JNum.nan
  | JNum.ninf, JNum.ninf => JNum.nan
  | JNum.inf, _ => JNum.inf
  | JNum.ninf, _ => JNum.ninf
  | JNum.fin _, JNum.inf => JNum.ninf
  | JNum.fin _, JNum.ninf => JNum.inf

/-- Characters treated as whitespace by the Number() string conversion. -/
def isJsWs (c : Char) : Bool :=
  c = (' ') || c = ('\t') || c = ('\n') || c = ('\r') || c = ('\x0b') || c = ('\x0c')

/-- Numeric value of a list of decimal digits. -/
def digitsToNat (ds : List Char) : Nat :=
  ds.foldl (fun a c => a * 10 + (c.toNat - 48)) 0

/-- The rational m · 10^e, built with mkRat so that concrete instances
evaluate inside the kernel. -/
def ratOfSci (m : ℤ) (e : ℤ) : ℚ :=
  match e with
  | Int.ofNat k => mkRat (m * Int.ofNat ((10 : ℕ) ^ k)) 1
  | Int.negSucc k => mkRat m ((10 : ℕ) ^ (k + 1))

/-- Overflow threshold of the conversion of an exact value to a 64-bit
double.  The largest finite double is 2^1024 − 2^971 and the grid step at
that magnitude is 2^971, so under round-to-nearest-even every exact value
of magnitude at least the midpoint 2^1024 − 2^970 converts to an infinity. -/
def dblOverflow : ℚ := mkRat (Int.ofNat (2 ^ 1024 - 2 ^ 970)) 1

/-- An exact numeric value as a double: magnitudes reaching the overflow
threshold saturate to ±Infinity (`Number("1e999")` is Infinity); in-range
values are kept exact. -/
def satJNum (q : ℚ) : JNum :=
  if dblOverflow ≤ q then JNum.inf
  else if q ≤ -dblOverflow then JNum.ninf
  else JNum.fin q

/-- Parse an exponent part `e|E [+|-] digits`; absence is exponent 0,
`e` with no digits fails the whole numeric parse. -/
def parseExpPart (cs : List Char) : Option (ℤ × List Char) :=
  match cs with
  | 'e' :: r =>
    (match r with
     | '+' :: r2 =>
       (match r2.span (fun c => c.isDigit) with
        | ([], _) => none
        | (ds, r3) => some (Int.ofNat (digitsToNat ds), r3))
     | '-' :: r2 =>
       (match r2.span (fun c => c.isDigit) with
        | ([], _) => none
        | (ds, r3) => some (-Int.ofNat (digitsToNat ds), r3))
     | _ =>
       (match r.span (fun c => c.isDigit) with
        | ([], _) => none
        | (ds, r3) => some (Int.ofNat (digitsToNat ds), r3)))
  | 'E' :: r =>
    (match r with
     | '+' :: r2 =>
       (match r2.span (fun c => c.isDigit) with
        | ([], _) => none
        | (ds, r3) => some (Int.ofNat (digitsToNat ds), r3))
     | '-' :: r2 =>
       (match r2.span (fun c => c.isDigit) with
        | ([], _) => none
        | (ds, r3) => some (-Int.ofNat (digitsToNat ds), r3))
     | _ =>
       (match r.span (fun c => c.isDigit) with
        | ([], _) => none
        | (ds, r3) => some (Int.ofNat (digitsToNat ds), r3)))
  | _ => some (0, cs)

/-- Parse an unsigned decimal literal `digits [. digits]` or `. digits`,
returning its mantissa and the count of fractional digits. -/
def parseUnsignedDec (cs : List Char) : Option ((ℕ × ℕ) × List Char) :=
  match cs.span (fun c => c.isDigit) with
  | ([], r1) =>
    (match r1 with
     | '.' :: r2 =>
       (match r2.span (fun c => c.isDigit) with
        | ([], _) => none
        | (fs, r3) => some ((digitsToNat fs, fs.length), r3))
     | _ => none)
  | (ds, r1) =>
    (match r1 with
     | '.' :: r2 =>
       (match r2.span (fun c => c.isDigit) with
        | (fs, r3) => some ((digitsToNat (ds ++ fs), fs.length), r3))
     | _ => some ((digitsToNat ds, 0), r1))

/-- Parse a signed decimal literal with optional exponent. -/
def parseSignedDec (cs : List Char) : Option (ℚ × List Char) :=
  let sr : Bool × List Char :=
    match cs with
    | '-' :: r => (true, r)
    | '+' :: r => (false, r)
    | _ => (false, cs)
  match parseUnsignedDec sr.2 with
  | none => none
  | some ((m, k), r1) =>
    match parseExpPart r1 with
    | none => none
    | some (e, r2) =>
      let mi : ℤ := if sr.1 then -Int.ofNat m else Int.ofNat m
      some (ratOfSci mi (e - Int.ofNat k), r2)

/-- Conversion of a string by JavaScript's Number(): surrounding whitespace
is dropped, the empty/whitespace-only string converts to 0, the literals
Infinity, +Infinity and -Infinity convert to the infinities, otherwise the whole
remainder must be a signed decimal literal — converted as a double, so an
overflowing literal also gives an infinity — else NaN.  (The rarely used
hex/octal/binary forms are not modelled; no claim uses them.) -/
def strToNum (t : String) : JNum :=
  let cs := ((t.toList.dropWhile isJsWs).reverse.dropWhile isJsWs).reverse
  if cs = [] then JNum.fin 0
  else if cs = ("Infinity").toList ∨ cs = ("+Infinity").toList then JNum.inf
  else if cs = ("-Infinity").toList then JNum.ninf
  else
    match parseSignedDec cs with
    | some (q, []) => satJNum q
    | _ => JNum.nan

/-- Conversion by JavaScript's Number().  Arrays convert through their
joined string form: the empty array and singleton arrays of null/undefined
convert to 0, a singleton number or numeric string to its value, and every
other array — like any plain object — to NaN.  (Exotic nestings such as
[[5]] are approximated by NaN; no claim exercises them.) -/
def toNumberJS : JSV → JNum
  | vnull => JNum.fin 0
  | vundef => JNum.nan
  | vbool b => JNum.fin (if b then 1 else 0)
  | vnum n => n
  | vstr t => strToNum t
  | varr [] => JNum.fin 0
  | varr [vnull] => JNum.fin 0
  | varr [vundef] => JNum.fin 0
  | varr [vnum n] => n
  | varr [vstr t] => strToNum t
  | varr _ => JNum.nan
  | vobj _ => JNum.nan

/-- Contribution of one array element to the reduces of src lines 103-105:
`Number(e.value || 0)`, none when reading `.value` throws. -/
def valueContrib (e : JSV) : Option JNum :=
  (jgetE e ("value")).map (fun w => toNumberJS (jsOr w (vnum (JNum.fin 0))))

/-- Left fold of `(s, e) => s + Number(e.value || 0)` over the elements. -/
def reduceGo : List JSV → JNum → Option JNum
  | [], acc => some acc
  | e :: es, acc =>
    match valueContrib e with
    | none => none
    | some n => reduceGo es (jadd acc n)

/-- The reduce expression `l.reduce((s, e) => s + Number(e.value || 0), 0)`
of src lines 103-105; calling .reduce on a non-array throws. -/
def reduceValues (v : JSV) : Option JNum :=
  match v with
  | varr xs => reduceGo xs (JNum.fin 0)
  | _ => none

/-- The six pieces of component state (src lines 66-73). -/
structure StoreState where
  user : JSV
  categories : JSV
  entries : JSV
  expenses : JSV
  goals : JSV
  fixedCosts : JSV

/-- DEFAULT_USER (src lines 38-42). -/
def DEFAULT_USER : JSV :=
  vobj [(("name"), vstr ("Seu Nome")), (("email"), vstr ("seu@email.com")),
        (("bio"), vstr ("Programador em progresso 💙"))]

/-- SAMPLE_CATEGORIES (src lines 44-51). -/
def SAMPLE_CATEGORIES : JSV :=
  varr [vstr ("Salário"), vstr ("Alimentação"), vstr ("Transporte"),
        vstr ("Lazer"), vstr ("Assinaturas"), vstr ("Outros")]

/-- Initial state of the six useState hooks (src lines 66-73). -/
def initState : StoreState :=
  ⟨DEFAULT_USER, SAMPLE_CATEGORIES, varr [], varr [], varr [], varr []⟩

/-- Derived totals of src line 103: `entries.reduce((s, e) => s + Number(e.value || 0), 0)`. -/
def totalIncome (s : StoreState) : Option JNum := reduceValues s.entries

/-- Derived totals of src line 104, same reduce over `expenses`. -/
def totalExpenses (s : StoreState) : Option JNum := reduceValues s.expenses

/-- Derived value of src line 105:
`totalIncome - totalExpenses - fixedCosts.reduce((s, f) => s + Number(f.value || 0), 0)`. -/
def projectedBalance (s : StoreState) : Option JNum :=
  match totalIncome s, totalExpenses s, reduceValues s.fixedCosts with
  | some a, some b, some c => some (jsub (jsub a b) c)
  | _, _, _ => none

/-- Array literal with spread `[item, ...s]`.  Spreading an array prepends
to its elements, spreading a string iterates its characters, spreading any
other value throws a TypeError (none). -/
def jsSpreadCons (item : JSV) (coll : JSV) : Option JSV :=
  match coll with
  | varr xs => some (varr (item :: xs))
  | vstr t => some (varr (item :: t.toList.map (fun c => vstr (String.singleton c))))
  | _ => none

/-- Strict equality `w === id` against a string: true exactly for the same
string (a comparison with a non-string value is always false). -/
def jsIsStr (w : JSV) (id : String) : Bool :=
  match w with
  | vstr t => t = id
  | _ => false

/-- Body of `s.filter((i) => i.id !== id)` over the elements: keeps the
elements whose id differs, none if reading `.id` throws. -/
def filterIdNe (id : String) : List JSV → Option (List JSV)
  | [] => some []
  | g :: gs =>
    match jgetE g ("id") with
    | none => none
    | some w => (filterIdNe id gs).map (fun r => if jsIsStr w id then r else g :: r)

/-- The call `coll.filter((i) => i.id !== id)`; .filter on a non-array
(strings included) throws a TypeError. -/
def jsFilterIdNe (id : String) (coll : JSV) : Option JSV :=
  match coll with
  | varr xs => (filterIdNe id xs).map varr
  | _ => none

/-- The entry/expense form of src line 76 (the handlers read it; its UI
resets after a successful add are irrelevant to the claims). -/
structure EntryForm where
  type : String
  value : String
  desc : String
  cat : String
  date : String

/-- The ledger item literal of src line 113.  `newId` is the uid() result
and `today` the `new Date().toISOString().slice(0, 10)` result. -/
def entryItem (f : EntryForm) (v : JNum) (newId : String) (today : String) : JSV :=
  vobj [(("id"), vstr newId), (("value"), vnum v), (("desc"), vstr f.desc),
        (("cat"), vstr f.cat), (("date"), jsOr (vstr f.date) (vstr today))]

/-- addEntry handler (src lines 108-118).  The Bool result is true when the
validation alert "Preencha descrição e valor" was shown (state unchanged),
false on a successful add; none models the TypeError of spreading a
non-iterable collection. -/
def addEntry (f : EntryForm) (newId : String) (today : String) (s : StoreState) :
    Option (StoreState × Bool) :=
  let v := toNumberJS (vstr f.value)
  if !(jsTruthy (vnum v)) || !(jsTruthy (vstr f.desc)) then some (s, true)
  else
    if f.type = ("income") then
      (jsSpreadCons (entryItem f v newId today) s.entries).map
        (fun es => ({ s with entries := es }, false))
    else
      (jsSpreadCons (entryItem f v newId today) s.expenses).map
        (fun xs => ({ s with expenses := xs }, false))

/-- removeItem handler (src lines 120-124); `confirmed` is the result of
the confirm("Remover item?") dialog. -/
def removeItem (id : String) (kind : String) (confirmed : Bool) (s : StoreState) :
    Option StoreState :=
  if !confirmed then some s
  else
    match (if kind = ("income") then (jsFilterIdNe id s.entries).map (fun es => { s with entries := es }) else some s) with
    | none => none
    | some s1 =>
      if kind = ("expense") then (jsFilterIdNe id s1.expenses).map (fun xs => { s1 with expenses := xs })
      else some s1

/-- The goal form of src line 77. -/
structure GoalForm where
  name : String
  price : String
  priority : String

/-- The goal literal of src line 130. -/
def goalItem (gf : GoalForm) (price : JNum) (newId : String) : JSV :=
  vobj [(("id"), vstr newId), (("name"), vstr gf.name), (("price"), vnum price),
        (("priority"), vstr gf.priority), (("bought"), vbool false)]

/-- addGoal handler (src lines 126-132).  The Bool result is true when the
validation alert "Preencha nome e preço do desejo" was shown. -/
def addGoal (gf : GoalForm) (newId : String) (s : StoreState) :
    Option (StoreState × Bool) :=
  let price := toNumberJS (vstr gf.price)
  if !(jsTruthy (vstr gf.name)) || !(jsTruthy (vnum price)) then some (s, true)
  else
    (jsSpreadCons (goalItem gf price newId) s.goals).map
      (fun gs => ({ s with goals := gs }, false))

/-- Body of the map in toggleGoal: `(g) => (g.id === id ? { ...g, bought: !g.bought } : g)`. -/
def toggleOne (id : String) (g : JSV) : Option JSV :=
  match jgetE g ("id") with
  | none => none
  | some w =>
    if jsIsStr w id then
      some (jsObjSpreadSet g ("bought") (vbool (!(jsTruthy (jget g ("bought"))))))
    else some g

/-- The call `s.map(...)` over the goal elements. -/
def mapToggle (id : String) : List JSV → Option (List JSV)
  | [] => some []
  | g :: gs =>
    match toggleOne id g with
    | none => none
    | some g2 => (mapToggle id gs).map (fun r => g2 :: r)

/-- toggleGoal handler (src lines 134-136); .map on a non-array throws. -/
def toggleGoal (id : String) (s : StoreState) : Option StoreState :=
  match s.goals with
  | varr xs => (mapToggle id xs).map (fun ys => { s with goals := varr ys })
  | _ => none

/-- Inline removal handler of the goal list (src line 265):
`setGoals((s) => s.filter((x) => x.id !== g.id))`. -/
def removeGoalOp (id : String) (s : StoreState) : Option StoreState :=
  (jsFilterIdNe id s.goals).map (fun gs => { s with goals := gs })

/-- addFixedCost handler (src lines 138-143); `name`/`value` are the two
prompt results (none models a cancelled dialog, which yields null). -/
def addFixedCost (name : Option String) (value : Option String) (newId : String)
    (s : StoreState) : Option StoreState :=
  match name, value with
  | some n, some t =>
    if n = ("") || t = ("") then some s
    else
      (jsSpreadCons (vobj [(("id"), vstr newId), (("name"), vstr n),
                           (("value"), vnum (toNumberJS (vstr t)))]) s.fixedCosts).map
        (fun fc => { s with fixedCosts := fc })
  | _, _ => some s

/-- Inline removal handler of the fixed-cost list (src line 232). -/
def removeFixedCostOp (id : String) (s : StoreState) : Option StoreState :=
  (jsFilterIdNe id s.fixedCosts).map (fun fc => { s with fixedCosts := fc })

/-- Inline "Nova categoria" handler (src lines 298-301); `cat` is the
prompt result. -/
def addCategory (cat : Option String) (s : StoreState) : Option StoreState :=
  match cat with
  | some c =>
    if c = ("") then some s
    else (jsSpreadCons (vstr c) s.categories).map (fun cs => { s with categories := cs })
  | none => some s

/-- Inline "Editar Perfil" handler (src line 195):
`if (name) setUser({ ...user, name })`. -/
def setProfileName (name : Option String) (s : StoreState) : StoreState :=
  match name with
  | some n =>
    if n = ("") then s
    else { s with user := jsObjSpreadSet s.user ("name") (vstr n) }
  | none => s

/-- The payload object `{ user, categories, entries, expenses, goals,
fixedCosts }` built identically by the save effect (src line 98) and by
exportData (src line 146). -/
def payloadOf (s : StoreState) : JSV :=
  vobj [(("user"), s.user), (("categories"), s.categories), (("entries"), s.entries),
        (("expenses"), s.expenses), (("goals"), s.goals), (("fixedCosts"), s.fixedCosts)]

/-- JSON whitespace skip. -/
def skipWsJ (cs : List Char) : List Char :=
  cs.dropWhile (fun c => c = (' ') || c = ('\t') || c = ('\n') || c = ('\r'))

/-- Hexadecimal digit value. -/
def hexVal (c : Char) : Option Nat :=
  if c.isDigit then some (c.toNat - 48)
  else if 97 ≤ c.toNat ∧ c.toNat ≤ 102 then some (c.toNat - 87)
  else if 65 ≤ c.toNat ∧ c.toNat ≤ 70 then some (c.toNat - 55)
  else none

/-- Body of a JSON string literal after the opening quote: the usual
escapes, a \.u escape with four hex digits, a raw control character is
rejected. -/
def pStrBody : List Char → List Char → Option (String × List Char)
  | [], _ => none
  | '"' :: r, acc => some (String.mk acc.reverse, r)
  | '\\' :: e :: r, acc =>
    match e with
    | '"' => pStrBody r ('"' :: acc)
    | '\\' => pStrBody r ('\\' :: acc)
    | '/' => pStrBody r ('/' :: acc)
    | 'b' => pStrBody r ('\x08' :: acc)
    | 'f' => pStrBody r ('\x0c' :: acc)
    | 'n' => pStrBody r ('\n' :: acc)
    | 'r' => pStrBody r ('\r' :: acc)
    | 't' => pStrBody r ('\t' :: acc)
    | 'u' =>
      (match r with
       | a :: b :: c :: d :: r2 =>
         (match hexVal a, hexVal b, hexVal c, hexVal d with
          | some ha, some hb, some hc, some hd =>
            pStrBody r2 (Char.ofNat (((ha * 16 + hb) * 16 + hc) * 16 + hd) :: acc)
          | _, _, _, _ => none)
       | _ => none)
    | _ => none
  | c :: r, acc => if c.toNat < 32 then none else pStrBody r (c :: acc)

/-- JSON number literal: -? digits (no leading zeros) [. digits] [exponent]. -/
def pNumJson (cs : List Char) : Option (JNum × List Char) :=
  let sr : Bool × List Char :=
    match cs with
    | '-' :: r => (true, r)
    | _ => (false, cs)
  match sr.2.span (fun c => c.isDigit) with
  | ([], _) => none
  | (ds, r1) =>
    if ds.length > 1 ∧ ds.headD ('x') = ('0') then none
    else
      match (match r1 with
             | '.' :: r2 =>
               (match r2.span (fun c => c.isDigit) with
                | ([], _) => none
                | (fs2, r3) => some ((digitsToNat (ds ++ fs2), fs2.length), r3))
             | _ => some ((digitsToNat ds, 0), r1)) with
      | none => none
      | some ((m, k), r4) =>
        match parseExpPart r4 with
        | none => none
        | some (e, r5) =>
          let mi : ℤ := if sr.1 then -Int.ofNat m else Int.ofNat m
          some (satJNum (ratOfSci mi (e - Int.ofNat k)), r5)

mutual

/-- One JSON value, fuelled recursive descent. -/
def pVal : Nat → List Char → Option (JSV × List Char)
  | 0, _ => none
  | Nat.succ f, cs =>
    match skipWsJ cs with
    | 'n' :: 'u' :: 'l' :: 'l' :: r => some (vnull, r)
    | 't' :: 'r' :: 'u' :: 'e' :: r => some (vbool true, r)
    | 'f' :: 'a' :: 'l' :: 's' :: 'e' :: r => some (vbool false, r)
    | '"' :: r => (pStrBody r []).map (fun p => (vstr p.1, p.2))
    | '[' :: r => pArrBody f r
    | '\x7b' :: r => pObjBody f r
    | cs2 => (pNumJson cs2).map (fun p => (vnum p.1, p.2))

/-- Array body after the opening bracket. -/
def pArrBody : Nat → List Char → Option (JSV × List Char)
  | 0, _ => none
  | Nat.succ f, cs =>
    match skipWsJ cs with
    | ']' :: r => some (varr [], r)
    | cs2 =>
      match pVal f cs2 with
      | none => none
      | some (v, r1) => pArrRest f r1 [v]

/-- Remaining array elements. -/
def pArrRest : Nat → List Char → List JSV → Option (JSV × List Char)
  | 0, _, _ => none
  | Nat.succ f, cs, acc =>
    match skipWsJ cs with
    | ',' :: r =>
      (match pVal f r with
       | none => none
       | some (v, r1) => pArrRest f r1 (acc ++ [v]))
    | ']' :: r => some (varr acc, r)
    | _ => none

/-- Object body after the opening brace. -/
def pObjBody : Nat → List Char → Option (JSV × List Char)
  | 0, _ => none
  | Nat.succ f, cs =>
    match skipWsJ cs with
    | '\x7d' :: r => some (vobj [], r)
    | cs2 => pObjMember f cs2 []

/-- Object members; a duplicate key overwrites in place (setField), like
repeated assignment to a JS object. -/
def pObjMember : Nat → List Char → List (String × JSV) → Option (JSV × List Char)
  | 0, _, _ => none
  | Nat.succ f, cs, acc =>
    match skipWsJ cs with
    | '"' :: r =>
      (match pStrBody r [] with
       | none => none
       | some (k, r1) =>
         match skipWsJ r1 with
         | ':' :: r2 =>
           (match pVal f r2 with
            | none => none
            | some (v, r3) =>
              match skipWsJ r3 with
              | ',' :: r4 => pObjMember f r4 (setField acc k v)
              | '\x7d' :: r4 => some (vobj (setField acc k v), r4)
              | _ => none)
         | _ => none)
    | _ => none

end

/-- JSON.parse: one value followed only by whitespace.  The recursion
consumes at most two fuel units per input character, so 2·length+4 fuel
never runs out on an accepted input. -/
def parseJSON (t : String) : Option JSV :=
  match pVal (2 * t.length + 4) t.toList with
  | none => none
  | some (v, r) => if skipWsJ r = [] then some v else none

mutual

/-- Composite semantics of JSON.stringify followed by JSON.parse on an
in-memory value: NaN and the two infinities print as null, an undefined
array element prints as null, an object field holding undefined is dropped,
everything else is reproduced exactly (finite numbers round-trip through
their printed form and object key order is preserved). -/
def jrtV : JSV → JSV
  | vnull => vnull
  | vundef => vnull
  | vbool b => vbool b
  | vnum JNum.nan => vnull
  | vnum JNum.inf => vnull
  | vnum JNum.ninf => vnull
  | vnum (JNum.fin q) => vnum (JNum.fin q)
  | vstr t => vstr t
  | varr xs => varr (jrtL xs)
  | vobj fs => vobj (jrtF fs)

/-- jrtV on the elements of an array. -/
def jrtL : List JSV → List JSV
  | [] => []
  | x :: xs => jrtV x :: jrtL xs

/-- jrtV on the fields of an object, dropping undefined-valued fields. -/
def jrtF : List (String × JSV) → List (String × JSV)
  | [] => []
  | (_, vundef) :: fs => jrtF fs
  | (k, v) :: fs => (k, jrtV v) :: jrtF fs

end

/-- The six field-by-field assignments shared by the load effect (src lines
85-90) and importData (src lines 163-168): `setUser(data.user || DEFAULT_USER)`
and so on.  Reading a property of a null document throws a TypeError
(none), which the surrounding try/catch turns into the failure outcome. -/
def applyDoc (d : JSV) : Option StoreState :=
  match d with
  | vnull => none
  | vundef => none
  | _ =>
    some ⟨jsOr (jget d ("user")) DEFAULT_USER,
          jsOr (jget d ("categories")) SAMPLE_CATEGORIES,
          jsOr (jget d ("entries")) (varr []),
          jsOr (jget d ("expenses")) (varr []),
          jsOr (jget d ("goals")) (varr []),
          jsOr (jget d ("fixedCosts")) (varr [])⟩

/-- importData (src lines 156-175) once the chosen file has been read and
handed to JSON.parse (none = the parse threw).  The Bool tells which alert
fired: true for "Dados importados com sucesso", false for "Falha ao
importar: arquivo inválido", in which case the state is untouched. -/
def importTree (parsed : Option JSV) (s : StoreState) : StoreState × Bool :=
  match parsed with
  | none => (s, false)
  | some d =>
    match applyDoc d with
    | none => (s, false)
    | some s2 => (s2, true)

/-- importData applied to the raw text of the chosen file. -/
def importFile (contents : String) (s : StoreState) : StoreState × Bool :=
  importTree (parseJSON contents) s

/-- Load effect (src lines 80-95): `raw` is localStorage.getItem("myfinance_v1"),
none when the key is absent; the empty string is falsy so `if (raw)` skips
it too.  A parse error or a null document is caught and logged, leaving the
state as it was. -/
def load (raw : Option String) (s : StoreState) : StoreState :=
  match raw with
  | none => s
  | some text =>
    if text = ("") then s
    else
      match parseJSON text with
      | none => s
      | some d => (applyDoc d).getD s

/-- exportData (src lines 145-154) serialises `payloadOf s` with
JSON.stringify; a stringify followed by a parse acts on it as `jrtV`. -/
def exportData (s : StoreState) : JSV := payloadOf s

mutual

/-- No undefined occurs anywhere inside the value. -/
def noUndefV : JSV → Bool
  | vundef => false
  | varr xs => noUndefL xs
  | vobj fs => noUndefF fs
  | _ => true

/-- noUndefV on all elements. -/
def noUndefL : List JSV → Bool
  | [] => true
  | x :: xs => noUndefV x && noUndefL xs

/-- noUndefV on all field values. -/
def noUndefF : List (String × JSV) → Bool
  | [] => true
  | (_, v) :: fs => noUndefV v && noUndefF fs

end

mutual

/-- No NaN occurs anywhere inside the value. -/
def noNanV : JSV → Bool
  | vnum JNum.nan => false
  | varr xs => noNanL xs
  | vobj fs => noNanF fs
  | _ => true

/-- noNanV on all elements. -/
def noNanL : List JSV → Bool
  | [] => true
  | x :: xs => noNanV x && noNanL xs

/-- noNanV on all field values. -/
def noNanF : List (String × JSV) → Bool
  | [] => true
  | (_, v) :: fs => noNanV v && noNanF fs

end

mutual

/-- Every number inside the value is finite: no NaN and no ±Infinity. -/
def finNumV : JSV → Bool
  | vnum JNum.nan => false
  | vnum JNum.inf => false
  | vnum JNum.ninf => false
  | varr xs => finNumL xs
  | vobj fs => finNumF fs
  | _ => true

/-- finNumV on all elements. -/
def finNumL : List JSV → Bool
  | [] => true
  | x :: xs => finNumV x && finNumL xs

/-- finNumV on all field values. -/
def finNumF : List (String × JSV) → Bool
  | [] => true
  | (_, v) :: fs => finNumV v && finNumF fs

end

/-- A value JSON.parse can actually produce: neither undefined nor NaN
occurs in it (an infinity can: an overflowing literal such as 1e999 parses
to Infinity). -/
def cleanV (v : JSV) : Bool := noUndefV v && noNanV v

/-- Every number stored anywhere in the state is finite — no NaN and no
±Infinity. -/
def AllFiniteState (s : StoreState) : Bool :=
  finNumV s.user && finNumV s.categories && finNumV s.entries &&
  finNumV s.expenses && finNumV s.goals && finNumV s.fixedCosts

/-- States reachable from the initial state through the documented
operations.  Handler steps require the handler not to throw; an imported
document is any value JSON.parse can produce (cleanV). -/
inductive Reach : StoreState → Prop where
  | init : Reach initState
  | stepAddEntry (s : StoreState) (f : EntryForm) (i t : String) (s2 : StoreState)
      (a : Bool) (h : Reach s) (he : addEntry f i t s = some (s2, a)) : Reach s2
  | stepRemoveItem (s : StoreState) (id kind : String) (c : Bool) (s2 : StoreState)
      (h : Reach s) (he : removeItem id kind c s = some s2) : Reach s2
  | stepAddGoal (s : StoreState) (gf : GoalForm) (i : String) (s2 : StoreState)
      (a : Bool) (h : Reach s) (he : addGoal gf i s = some (s2, a)) : Reach s2
  | stepToggleGoal (s : StoreState) (id : String) (s2 : StoreState)
      (h : Reach s) (he : toggleGoal id s = some s2) : Reach s2
  | stepRemoveGoal (s : StoreState) (id : String) (s2 : StoreState)
      (h : Reach s) (he : removeGoalOp id s = some s2) : Reach s2
  | stepAddFixedCost (s : StoreState) (n v : Option String) (i : String) (s2 : StoreState)
      (h : Reach s) (he : addFixedCost n v i s = some s2) : Reach s2
  | stepRemoveFixedCost (s : StoreState) (id : String) (s2 : StoreState)
      (h : Reach s) (he : removeFixedCostOp id s = some s2) : Reach s2
  | stepAddCategory (s : StoreState) (c : Option String) (s2 : StoreState)
      (h : Reach s) (he : addCategory c s = some s2) : Reach s2
  | stepSetName (s : StoreState) (n : Option String)
      (h : Reach s) : Reach (setProfileName n s)
  | stepImport (s : StoreState) (d : JSV) (h : Reach s) (hc : cleanV d = true) :
      Reach (importTree (some d) s).1
  | stepImportFail (s : StoreState) (h : Reach s) : Reach (importTree none s).1

/-- Id of an element read for the uniqueness claim; an element without a
string id reads as the empty string. -/
def idKeyStr (e : JSV) : String :=
  match jget e ("id") with
  | vstr t => t
  | _ => ("")

/-- The ids of the elements of a collection. -/
def usedIds (v : JSV) : List String :=
  match v with
  | varr xs => xs.map idKeyStr
  | _ => []

/-- The id is unique within each owning collection. -/
def UniqueIdsAll (s : StoreState) : Prop :=
  (usedIds s.entries).Nodup ∧ (usedIds s.expenses).Nodup ∧
  (usedIds s.goals).Nodup ∧ (usedIds s.fixedCosts).Nodup

/-- Freshness of a generated uid: it occurs as no id anywhere in the state. -/
def UidFresh (i : String) (s : StoreState) : Prop :=
  i ∉ usedIds s.entries ∧ i ∉ usedIds s.expenses ∧
  i ∉ usedIds s.goals ∧ i ∉ usedIds s.fixedCosts

/-- States reachable through the in-app operations only (no import), with
every uid generation yielding a fresh id. -/
inductive ReachU : StoreState → Prop where
  | init : ReachU initState
  | stepAddEntry (s : StoreState) (f : EntryForm) (i t : String) (s2 : StoreState)
      (a : Bool) (h : ReachU s) (hf : UidFresh i s)
      (he : addEntry f i t s = some (s2, a)) : ReachU s2
  | stepRemoveItem (s : StoreState) (id kind : String) (c : Bool) (s2 : StoreState)
      (h : ReachU s) (he : removeItem id kind c s = some s2) : ReachU s2
  | stepAddGoal (s : StoreState) (gf : GoalForm) (i : String) (s2 : StoreState)
      (a : Bool) (h : ReachU s) (hf : UidFresh i s)
      (he : addGoal gf i s = some (s2, a)) : ReachU s2
  | stepToggleGoal (s : StoreState) (id : String) (s2 : StoreState)
      (h : ReachU s) (he : toggleGoal id s = some s2) : ReachU s2
  | stepRemoveGoal (s : StoreState) (id : String) (s2 : StoreState)
      (h : ReachU s) (he : removeGoalOp id s = some s2) : ReachU s2
  | stepAddFixedCost (s : StoreState) (n v : Option String) (i : String) (s2 : StoreState)
      (h : ReachU s) (hf : UidFresh i s)
      (he : addFixedCost n v i s = some s2) : ReachU s2
  | stepRemoveFixedCost (s : StoreState) (id : String) (s2 : StoreState)
      (h : ReachU s) (he : removeFixedCostOp id s = some s2) : ReachU s2
  | stepAddCategory (s : StoreState) (c : Option String) (s2 : StoreState)
      (h : ReachU s) (he : addCategory c s = some s2) : ReachU s2
  | stepSetName (s : StoreState) (n : Option String)
      (h : ReachU s) : ReachU (setProfileName n s)

/-- A ledger operation: one addEntry or one removeItem call. -/
inductive LOp where
  | ladd (f : EntryForm) (newId : String) (today : String) : LOp
  | lrem (id : String) (kind : String) (confirmed : Bool) : LOp

/-- Application of one ledger operation. -/
def applyLOp (o : LOp) (s : StoreState) : Option StoreState :=
  match o with
  | LOp.ladd f i t => (addEntry f i t s).map Prod.fst
  | LOp.lrem id k c => removeItem id k c s

/-- A sequence of ledger operations run from a state. -/
def runLOps : List LOp → StoreState → Option StoreState
  | [], s => some s
  | o :: os, s =>
    match applyLOp o s with
    | none => none
    | some s2 => runLOps os s2

/-- Specification-side sum: the `value` fields of the elements of the
collection, each read as the number it stores (and as 0 when it does not
store a number), added up with JavaScript number addition — which agrees
with the exact rational sum whenever all the values are finite. -/
def sumSpec (v : JSV) : JNum :=
  match v with
  | varr xs => (xs.map (fun e =>
      match jget e ("value") with
      | vnum n => n
      | _ => JNum.fin 0)).foldl jadd (JNum.fin 0)
  | _ => JNum.fin 0

/-! Basic lemmas about the JS value helpers. -/

theorem jsOr_pos (a b : JSV) (h : jsTruthy a = true) : jsOr a b = a := by
  simp [jsOr, h]

theorem jsOr_neg (a b : JSV) (h : jsTruthy a = false) : jsOr a b = b := by
  simp [jsOr, h]

theorem noUndefL_iff (xs : List JSV) :
    noUndefL xs = true ↔ ∀ e ∈ xs, noUndefV e = true := by
  induction xs with
  | nil => simp [noUndefL]
  | cons x xs ih => simp [noUndefL, ih]

theorem noNanL_iff (xs : List JSV) :
    noNanL xs = true ↔ ∀ e ∈ xs, noNanV e = true := by
  induction xs with
  | nil => simp [noNanL]
  | cons x xs ih => simp [noNanL, ih]

theorem noUndefF_iff (fs : List (String × JSV)) :
    noUndefF fs = true ↔ ∀ p ∈ fs, noUndefV p.2 = true := by
  induction fs with
  | nil => simp [noUndefF]
  | cons p fs ih =>
    cases p with
    | mk k v => simp [noUndefF, ih]

theorem noNanF_iff (fs : List (String × JSV)) :
    noNanF fs = true ↔ ∀ p ∈ fs, noNanV p.2 = true := by
  induction fs with
  | nil => simp [noNanF]
  | cons p fs ih =>
    cases p with
    | mk k v => simp [noNanF, ih]

theorem noUndefV_ne_undef (v : JSV) (h : noUndefV v = true) : v ≠ vundef := by
  intro hv
  rw [hv] at h
  simp [noUndefV] at h

theorem lookupField_noUndef (fs : List (String × JSV)) (k : String)
    (h : noUndefF fs = true) :
    lookupField fs k = vundef ∨ noUndefV (lookupField fs k) = true := by
  induction fs with
  | nil => exact Or.inl rfl
  | cons p fs ih =>
    cases p with
    | mk k2 v =>
      rw [noUndefF] at h
      rw [Bool.and_eq_true] at h
      rw [lookupField]
      by_cases hk : k2 = k
      · simp [hk, h.1]
      · simp [hk]
        exact ih h.2

theorem lookupField_noNan (fs : List (String × JSV)) (k : String)
    (h : noNanF fs = true) :
    lookupField fs k = vundef ∨ noNanV (lookupField fs k) = true := by
  induction fs with
  | nil => exact Or.inl rfl
  | cons p fs ih =>
    cases p with
    | mk k2 v =>
      rw [noNanF] at h
      rw [Bool.and_eq_true] at h
      rw [lookupField]
      by_cases hk : k2 = k
      · simp [hk, h.1]
      · simp [hk]
        exact ih h.2

theorem jget_noUndef (d : JSV) (k : String) (h : noUndefV d = true) :
    jget d k = vundef ∨ noUndefV (jget d k) = true := by
  cases d with
  | vobj fs => exact lookupField_noUndef fs k (by simpa [noUndefV] using h)
  | vnull => exact Or.inl rfl
  | vundef => exact Or.inl rfl
  | vbool b => exact Or.inl rfl
  | vnum n => exact Or.inl rfl
  | vstr t => exact Or.inl rfl
  | varr xs => exact Or.inl rfl

theorem jget_noNan (d : JSV) (k : String) (h : noNanV d = true) :
    jget d k = vundef ∨ noNanV (jget d k) = true := by
  cases d with
  | vobj fs => exact lookupField_noNan fs k (by simpa [noNanV] using h)
  | vnull => exact Or.inl rfl
  | vundef => exact Or.inl rfl
  | vbool b => exact Or.inl rfl
  | vnum n => exact Or.inl rfl
  | vstr t => exact Or.inl rfl
  | varr xs => exact Or.inl rfl

theorem jrtF_cons (k : String) (v : JSV) (fs : List (String × JSV))
    (h : v ≠ vundef) : jrtF ((k, v) :: fs) = (k, jrtV v) :: jrtF fs := by
  cases v with
  | vundef => exact absurd rfl h
  | vnull => rfl
  | vbool b => rfl
  | vnum n => rfl
  | vstr t => rfl
  | varr xs => rfl
  | vobj gs => rfl

mutual

theorem jrtV_id (v : JSV) (hu : noUndefV v = true) (hn : finNumV v = true) :
    jrtV v = v := by
  cases v with
  | vnull => rfl
  | vundef => simp [noUndefV] at hu
  | vbool b => rfl
  | vnum n =>
    cases n with
    | nan => simp [finNumV] at hn
    | inf => simp [finNumV] at hn
    | ninf => simp [finNumV] at hn
    | fin q => rfl
  | vstr t => rfl
  | varr xs =>
    rw [jrtV]
    rw [jrtL_id xs (by simpa [noUndefV] using hu) (by simpa [finNumV] using hn)]
  | vobj fs =>
    rw [jrtV]
    rw [jrtF_id fs (by simpa [noUndefV] using hu) (by simpa [finNumV] using hn)]

theorem jrtL_id (xs : List JSV) (hu : noUndefL xs = true) (hn : finNumL xs = true) :
    jrtL xs = xs := by
  cases xs with
  | nil => rfl
  | cons x xs =>
    rw [noUndefL, Bool.and_eq_true] at hu
    rw [finNumL, Bool.and_eq_true] at hn
    rw [jrtL]
    rw [jrtV_id x hu.1 hn.1, jrtL_id xs hu.2 hn.2]

theorem jrtF_id (fs : List (String × JSV)) (hu : noUndefF fs = true)
    (hn : finNumF fs = true) : jrtF fs = fs := by
  cases fs with
  | nil => rfl
  | cons p fs =>
    cases p with
    | mk k v =>
      rw [noUndefF, Bool.and_eq_true] at hu
      rw [finNumF, Bool.and_eq_true] at hn
      have hne : v ≠ vundef := noUndefV_ne_undef v hu.1
      rw [jrtF_cons k v fs hne, jrtV_id v hu.1 hn.1, jrtF_id fs hu.2 hn.2]

end

/-! Lemmas about the ledger collections and the derived totals. -/

/-- A collection shaped as the ledger handlers keep it: an array whose
elements can be dereferenced and carry a numeric non-NaN `value` property
(a successful addEntry stores a truthy number, which is never NaN). -/
def NumListOk (v : JSV) : Prop :=
  ∃ xs, v = varr xs ∧ ∀ e ∈ xs,
    (e ≠ vnull ∧ e ≠ vundef) ∧ ∃ n : JNum, jget e ("value") = vnum n ∧ n ≠ JNum.nan

theorem jgetE_of_ne (e : JSV) (k : String) (h1 : e ≠ vnull) (h2 : e ≠ vundef) :
    jgetE e k = some (jget e k) := by
  cases e with
  | vnull => exact absurd rfl h1
  | vundef => exact absurd rfl h2
  | vbool b => rfl
  | vnum n => rfl
  | vstr t => rfl
  | varr xs => rfl
  | vobj fs => rfl

theorem valueContrib_good (e : JSV) (n : JNum) (h1 : e ≠ vnull) (h2 : e ≠ vundef)
    (h3 : jget e ("value") = vnum n) (hn : n ≠ JNum.nan) :
    valueContrib e = some n := by
  rw [valueContrib, jgetE_of_ne e ("value") h1 h2, h3]
  cases n with
  | nan => exact absurd rfl hn
  | inf => simp [jsOr, jsTruthy, toNumberJS]
  | ninf => simp [jsOr, jsTruthy, toNumberJS]
  | fin q =>
    by_cases hq : q = 0
    · subst hq
      simp [jsOr, jsTruthy, toNumberJS]
    · simp [jsOr, jsTruthy, hq, toNumberJS]

theorem jadd_fin (a b : ℚ) : jadd (JNum.fin a) (JNum.fin b) = JNum.fin (a + b) := rfl

theorem reduceGo_good (xs : List JSV) (a : JNum)
    (h : ∀ e ∈ xs, (e ≠ vnull ∧ e ≠ vundef) ∧
         ∃ n : JNum, jget e ("value") = vnum n ∧ n ≠ JNum.nan) :
    reduceGo xs a =
      some ((xs.map (fun e =>
        match jget e ("value") with
        | vnum n => n
        | _ => JNum.fin 0)).foldl jadd a) := by
  induction xs generalizing a with
  | nil => simp [reduceGo]
  | cons e es ih =>
    obtain ⟨⟨h1, h2⟩, n, hq, hnn⟩ := h e (List.mem_cons_self e es)
    rw [reduceGo, valueContrib_good e n h1 h2 hq hnn]
    show reduceGo es (jadd a n) = _
    rw [ih (jadd a n) (fun x hx => h x (List.mem_cons_of_mem _ hx))]
    simp only [List.map_cons, List.foldl_cons, hq]

theorem reduceValues_good (v : JSV) (h : NumListOk v) :
    reduceValues v = some (sumSpec v) := by
  obtain ⟨xs, rfl, hx⟩ := h
  rw [reduceValues, sumSpec, reduceGo_good xs (JNum.fin 0) hx]

theorem filterIdNe_sub (id : String) (xs ys : List JSV)
    (h : filterIdNe id xs = some ys) : ∀ e ∈ ys, e ∈ xs := by
  induction xs generalizing ys with
  | nil =>
    rw [filterIdNe] at h
    injection h with h
    subst h
    simp
  | cons g gs ih =>
    rw [filterIdNe] at h
    cases hg : jgetE g ("id") with
    | none =>
      rw [hg] at h
      exact absurd h (by simp)
    | some w =>
      rw [hg] at h
      cases hr : filterIdNe id gs with
      | none =>
        rw [hr] at h
        simp at h
      | some r =>
        rw [hr] at h
        simp only [Option.map] at h
        injection h with h
        intro e he
        by_cases hw : jsIsStr w id
        · rw [if_pos hw] at h
          subst h
          exact List.mem_cons_of_mem _ (ih r hr e he)
        · rw [if_neg hw] at h
          subst h
          rcases List.mem_cons.mp he with h1 | h1
          · subst h1
            exact List.mem_cons_self e gs
          · exact List.mem_cons_of_mem _ (ih r hr e h1)

theorem NumListOk_of_sub (xs ys : List JSV) (hsub : ∀ e ∈ ys, e ∈ xs)
    (h : NumListOk (varr xs)) : NumListOk (varr ys) := by
  obtain ⟨xs2, he, hx⟩ := h
  injection he with he
  subst he
  exact ⟨ys, rfl, fun e hy => hx e (hsub e hy)⟩

theorem jsFilterIdNe_ok (id : String) (v w : JSV) (h : NumListOk v)
    (hf : jsFilterIdNe id v = some w) : NumListOk w := by
  obtain ⟨xs, rfl, hx⟩ := h
  rw [jsFilterIdNe] at hf
  cases hr : filterIdNe id xs with
  | none =>
    rw [hr] at hf
    simp at hf
  | some ys =>
    rw [hr] at hf
    simp only [Option.map] at hf
    injection hf with hf
    subst hf
    exact NumListOk_of_sub xs ys (filterIdNe_sub id xs ys hr) ⟨xs, rfl, hx⟩

/-- The value stored by a successful addEntry is a truthy number, hence
never NaN. -/
theorem truthy_num_ne_nan (v : JNum) (h : jsTruthy (vnum v) = true) :
    v ≠ JNum.nan := by
  intro hv
  rw [hv] at h
  simp [jsTruthy] at h

theorem entryItem_ok (f : EntryForm) (n : JNum) (i t : String) (hn : n ≠ JNum.nan) :
    (entryItem f n i t ≠ vnull ∧ entryItem f n i t ≠ vundef) ∧
    ∃ m : JNum, jget (entryItem f n i t) ("value") = vnum m ∧ m ≠ JNum.nan := by
  refine ⟨⟨by simp [entryItem], by simp [entryItem]⟩, n, ?_, hn⟩
  rfl

/-- The three collections the totals read, all well shaped. -/
def TotalsInv (s : StoreState) : Prop :=
  NumListOk s.entries ∧ NumListOk s.expenses ∧ NumListOk s.fixedCosts

theorem addEntry_totalsInv (f : EntryForm) (i t : String) (s s2 : StoreState) (a : Bool)
    (he : addEntry f i t s = some (s2, a)) (hi : TotalsInv s) : TotalsInv s2 := by
  obtain ⟨h1, h2, h3⟩ := hi
  rw [addEntry] at he
  by_cases hv : (!jsTruthy (vnum (toNumberJS (vstr f.value))) ||
      !jsTruthy (vstr f.desc)) = true
  · rw [if_pos hv] at he
    injection he with he
    injection he with he ha
    subst he
    exact ⟨h1, h2, h3⟩
  · rw [if_neg hv] at he
    have hv1 : jsTruthy (vnum (toNumberJS (vstr f.value))) = true := by
      cases hB : jsTruthy (vnum (toNumberJS (vstr f.value))) with
      | true => rfl
      | false => exact absurd (by rw [hB]; rfl) hv
    have hnn : toNumberJS (vstr f.value) ≠ JNum.nan := truthy_num_ne_nan _ hv1
    by_cases ht : f.type = ("income")
    · rw [if_pos ht] at he
      obtain ⟨xs, hxs, hx⟩ := h1
      rw [hxs] at he
      have hsp : jsSpreadCons (entryItem f (toNumberJS (vstr f.value)) i t) (varr xs) =
          some (varr (entryItem f (toNumberJS (vstr f.value)) i t :: xs)) := rfl
      rw [hsp, Option.map_some'] at he
      injection he with he
      rw [Prod.mk.injEq] at he
      obtain ⟨hs2, ha⟩ := he
      subst hs2
      refine ⟨⟨entryItem f (toNumberJS (vstr f.value)) i t :: xs, rfl, ?_⟩, h2, h3⟩
      intro e hme
      rcases List.mem_cons.mp hme with hh | hh
      · subst hh
        exact entryItem_ok f (toNumberJS (vstr f.value)) i t hnn
      · exact hx e hh
    · rw [if_neg ht] at he
      obtain ⟨xs, hxs, hx⟩ := h2
      rw [hxs] at he
      have hsp : jsSpreadCons (entryItem f (toNumberJS (vstr f.value)) i t) (varr xs) =
          some (varr (entryItem f (toNumberJS (vstr f.value)) i t :: xs)) := rfl
      rw [hsp, Option.map_some'] at he
      injection he with he
      rw [Prod.mk.injEq] at he
      obtain ⟨hs2, ha⟩ := he
      subst hs2
      refine ⟨h1, ⟨entryItem f (toNumberJS (vstr f.value)) i t :: xs, rfl, ?_⟩, h3⟩
      intro e hme
      rcases List.mem_cons.mp hme with hh | hh
      · subst hh
        exact entryItem_ok f (toNumberJS (vstr f.value)) i t hnn
      · exact hx e hh

theorem removeItem_totalsInv (id kind : String) (c : Bool) (s s2 : StoreState)
    (he : removeItem id kind c s = some s2) (hi : TotalsInv s) : TotalsInv s2 := by
  obtain ⟨h1, h2, h3⟩ := hi
  rw [removeItem] at he
  by_cases hc : (!c) = true
  · rw [if_pos hc] at he
    injection he with he
    subst he
    exact ⟨h1, h2, h3⟩
  · rw [if_neg hc] at he
    by_cases hk : kind = ("income")
    · subst hk
      obtain ⟨xs, hxs, hx⟩ := h1
      rw [hxs] at he
      have hj : jsFilterIdNe id (varr xs) = Option.map varr (filterIdNe id xs) := rfl
      rw [hj] at he
      cases hr : filterIdNe id xs with
      | none =>
        rw [hr] at he
        exact Option.noConfusion (show (none : Option StoreState) = some s2 from he)
      | some ys =>
        rw [hr] at he
        have he2 : some ({ s with entries := varr ys } : StoreState) = some s2 := he
        injection he2 with he2
        subst he2
        exact ⟨NumListOk_of_sub xs ys (filterIdNe_sub id xs ys hr) ⟨xs, rfl, hx⟩, h2, h3⟩
    · rw [if_neg hk] at he
      by_cases hk2 : kind = ("expense")
      · subst hk2
        obtain ⟨xs, hxs, hx⟩ := h2
        have he2 : Option.map (fun es => ({ s with expenses := es } : StoreState))
            (jsFilterIdNe id s.expenses) = some s2 := he
        rw [hxs] at he2
        have hj : jsFilterIdNe id (varr xs) = Option.map varr (filterIdNe id xs) := rfl
        rw [hj] at he2
        cases hr : filterIdNe id xs with
        | none =>
          rw [hr] at he2
          exact Option.noConfusion (show (none : Option StoreState) = some s2 from he2)
        | some ys =>
          rw [hr] at he2
          have he3 : some ({ s with expenses := varr ys } : StoreState) = some s2 := he2
          injection he3 with he3
          subst he3
          exact ⟨h1, NumListOk_of_sub xs ys (filterIdNe_sub id xs ys hr) ⟨xs, rfl, hx⟩, h3⟩
      · have he2 : (if kind = ("expense") then
            Option.map (fun xs => ({ s with expenses := xs } : StoreState))
              (jsFilterIdNe id s.expenses)
          else some s) = some s2 := he
        rw [if_neg hk2] at he2
        injection he2 with he2
        subst he2
        exact ⟨h1, h2, h3⟩

theorem runLOps_totalsInv (ops : List LOp) (s s2 : StoreState)
    (h : runLOps ops s = some s2) (hi : TotalsInv s) : TotalsInv s2 := by
  induction ops generalizing s with
  | nil =>
    rw [runLOps] at h
    injection h with h
    subst h
    exact hi
  | cons o os ih =>
    rw [runLOps] at h
    cases ha : applyLOp o s with
    | none =>
      rw [ha] at h
      exact Option.noConfusion (show (none : Option StoreState) = some s2 from h)
    | some s1 =>
      rw [ha] at h
      have h2 : runLOps os s1 = some s2 := h
      refine ih s1 h2 ?_
      cases o with
      | ladd f i t =>
        rw [applyLOp] at ha
        cases hb : addEntry f i t s with
        | none =>
          rw [hb] at ha
          exact Option.noConfusion (show (none : Option StoreState) = some s1 from ha)
        | some p =>
          rw [hb] at ha
          have ha2 : some p.1 = some s1 := ha
          injection ha2 with ha2
          subst ha2
          exact addEntry_totalsInv f i t s p.1 p.2 (by rw [hb]) hi
      | lrem id k c =>
        rw [applyLOp] at ha
        exact removeItem_totalsInv id k c s s1 ha hi

theorem totalsInv_init : TotalsInv initState :=
  ⟨⟨[], rfl, by simp⟩, ⟨[], rfl, by simp⟩, ⟨[], rfl, by simp⟩⟩

/-- C1: after any sequence of addLedgerItem/removeLedgerItem calls from the
initial state, totalIncome is exactly the sum of the `value` fields of the
income entries, totalExpenses the sum over the expense entries, and
projectedBalance is totalIncome − totalExpenses − the sum of the `value`
fields of the fixed costs — the sums and differences taken in JavaScript
number arithmetic, which coincides with exact rational arithmetic whenever
all the stored values are finite (they can saturate to an infinity only
when an entered amount overflows the double range, e.g. "1e999"). -/
theorem c1_totals (ops : List LOp) (s : StoreState)
    (h : runLOps ops initState = some s) :
    totalIncome s = some (sumSpec s.entries) ∧
    totalExpenses s = some (sumSpec s.expenses) ∧
    projectedBalance s = some (jsub (jsub (sumSpec s.entries) (sumSpec s.expenses))
      (sumSpec s.fixedCosts)) := by
  obtain ⟨h1, h2, h3⟩ := runLOps_totalsInv ops initState s h totalsInv_init
  have e1 : totalIncome s = some (sumSpec s.entries) :=
    reduceValues_good s.entries h1
  have e2 : totalExpenses s = some (sumSpec s.expenses) :=
    reduceValues_good s.expenses h2
  have e3 : reduceValues s.fixedCosts = some (sumSpec s.fixedCosts) :=
    reduceValues_good s.fixedCosts h3
  refine ⟨e1, e2, ?_⟩
  rw [projectedBalance, e1, e2, e3]

/-- The state after the two ledger operations of the C1 witness. -/
def c1WitnessState : StoreState :=
  ⟨DEFAULT_USER, SAMPLE_CATEGORIES,
   varr [vobj [(("id"), vstr ("e1")), (("value"), vnum (JNum.fin 150)),
               (("desc"), vstr ("pay")), (("cat"), vstr ("Salário")),
               (("date"), vstr ("2026-01-02"))]],
   varr [vobj [(("id"), vstr ("e2")), (("value"), vnum (JNum.fin 40)),
               (("desc"), vstr ("food")), (("cat"), vstr ("Alimentação")),
               (("date"), vstr ("2026-01-02"))]],
   varr [], varr []⟩

/-- Concrete instance of C1: one income of 150 and one expense of 40. -/
theorem c1_totals_witness :
    runLOps [LOp.ladd ⟨("income"), ("150"), ("pay"), ("Salário"), ("")⟩ ("e1") ("2026-01-02"),
             LOp.ladd ⟨("expense"), ("40"), ("food"), ("Alimentação"), ("")⟩ ("e2") ("2026-01-02")]
      initState = some c1WitnessState ∧
    totalIncome c1WitnessState = some (JNum.fin 150) ∧
    totalExpenses c1WitnessState = some (JNum.fin 40) ∧
    projectedBalance c1WitnessState = some (JNum.fin 110) := by
  refine ⟨by with_unfolding_all rfl, ?_⟩
  have h := c1_totals
    [LOp.ladd ⟨("income"), ("150"), ("pay"), ("Salário"), ("")⟩ ("e1") ("2026-01-02"),
     LOp.ladd ⟨("expense"), ("40"), ("food"), ("Alimentação"), ("")⟩ ("e2") ("2026-01-02")]
    c1WitnessState (by with_unfolding_all rfl)
  refine ⟨h.1.trans (by with_unfolding_all rfl), h.2.1.trans (by with_unfolding_all rfl),
          h.2.2.trans (by with_unfolding_all rfl)⟩

/-- C3: for every pre-import state and every file contents that is not
parseable JSON, importing leaves all six collections identical to their
pre-import values and fires the failure alert instead of crashing. -/
theorem c3_import_invalid_noop (contents : String) (s : StoreState)
    (h : parseJSON contents = none) :
    importFile contents s = (s, false) := by
  rw [importFile, h]
  rfl

/-- Concrete instance of C3. -/
theorem c3_import_invalid_noop_witness :
    parseJSON ("not json") = none ∧
    importFile ("not json") initState = (initState, false) :=
  ⟨rfl, c3_import_invalid_noop ("not json") initState rfl⟩

/-! Validation behaviour of the add handlers (C4, C6) and the numeric
coercion inside the totals (C5). -/

theorem num_falsy_iff (v : JNum) :
    jsTruthy (vnum v) = false ↔ v = JNum.fin 0 ∨ v = JNum.nan := by
  cases v with
  | nan => simp [jsTruthy]
  | inf => simp [jsTruthy]
  | ninf => simp [jsTruthy]
  | fin q => simp [jsTruthy]

theorem str_falsy_iff (d : String) : jsTruthy (vstr d) = false ↔ d = ("") := by
  simp [jsTruthy]

/-- Closed form of addEntry on a state whose two ledger collections are
arrays. -/
theorem addEntry_closed (f : EntryForm) (i t : String) (s : StoreState)
    (es xs : List JSV) (he : s.entries = varr es) (hx : s.expenses = varr xs) :
    addEntry f i t s =
      if (!jsTruthy (vnum (toNumberJS (vstr f.value))) || !jsTruthy (vstr f.desc)) = true
      then some (s, true)
      else some (if f.type = ("income") then
          (⟨s.user, s.categories, varr (entryItem f (toNumberJS (vstr f.value)) i t :: es),
            s.expenses, s.goals, s.fixedCosts⟩, false)
        else
          (⟨s.user, s.categories, s.entries,
            varr (entryItem f (toNumberJS (vstr f.value)) i t :: xs),
            s.goals, s.fixedCosts⟩, false)) := by
  rw [addEntry]
  by_cases hc : (!jsTruthy (vnum (toNumberJS (vstr f.value))) || !jsTruthy (vstr f.desc)) = true
  · rw [if_pos hc, if_pos hc]
  · rw [if_neg hc, if_neg hc]
    by_cases ht : f.type = ("income")
    · rw [if_pos ht, if_pos ht, he]
      rfl
    · rw [if_neg ht, if_neg ht, hx]
      rfl

theorem validation_bool_iff (a b : Bool) :
    ((!a || !b) = true) ↔ (a = false ∨ b = false) := by
  cases a <;> cases b <;> simp

/-- C4: addEntry is rejected — alert shown, state (hence the persisted
payload) unchanged — exactly when the coerced value is 0 or NaN or the
description is empty; on success the new ledger item, carrying the supplied
fresh id, is prepended to the collection selected by the form type, and its
date falls back to today exactly when the form's date is empty. -/
theorem c4_addEntry_validation (f : EntryForm) (i t : String) (s : StoreState)
    (es xs : List JSV) (he : s.entries = varr es) (hx : s.expenses = varr xs) :
    (addEntry f i t s = some (s, true) ↔
      (toNumberJS (vstr f.value) = JNum.fin 0 ∨ toNumberJS (vstr f.value) = JNum.nan ∨
       f.desc = (""))) ∧
    ((toNumberJS (vstr f.value) ≠ JNum.fin 0 ∧ toNumberJS (vstr f.value) ≠ JNum.nan ∧
      f.desc ≠ ("")) →
      addEntry f i t s = some (if f.type = ("income") then
          (⟨s.user, s.categories, varr (entryItem f (toNumberJS (vstr f.value)) i t :: es),
            s.expenses, s.goals, s.fixedCosts⟩, false)
        else
          (⟨s.user, s.categories, s.entries,
            varr (entryItem f (toNumberJS (vstr f.value)) i t :: xs),
            s.goals, s.fixedCosts⟩, false))) ∧
    jget (entryItem f (toNumberJS (vstr f.value)) i t) ("id") = vstr i ∧
    (f.desc = ("") → addEntry f i t s = some (s, true) ∧ payloadOf s = payloadOf s) ∧
    (f.date = ("") → jget (entryItem f (toNumberJS (vstr f.value)) i t) ("date") = vstr t) ∧
    (f.date ≠ ("") → jget (entryItem f (toNumberJS (vstr f.value)) i t) ("date") = vstr f.date) := by
  have hcl := addEntry_closed f i t s es xs he hx
  have hcond : ((!jsTruthy (vnum (toNumberJS (vstr f.value))) ||
      !jsTruthy (vstr f.desc)) = true) ↔
      (toNumberJS (vstr f.value) = JNum.fin 0 ∨ toNumberJS (vstr f.value) = JNum.nan ∨
       f.desc = ("")) := by
    rw [validation_bool_iff, num_falsy_iff, str_falsy_iff, or_assoc]
  refine ⟨?_, ?_, rfl, ?_, ?_, ?_⟩
  · constructor
    · intro hadd
      by_contra hcon
      rw [← hcond] at hcon
      rw [hcl, if_neg hcon] at hadd
      injection hadd with hadd
      by_cases ht : f.type = ("income")
      · rw [if_pos ht] at hadd
        exact Bool.noConfusion (congrArg Prod.snd hadd)
      · rw [if_neg ht] at hadd
        exact Bool.noConfusion (congrArg Prod.snd hadd)
    · intro hcon
      rw [hcl, if_pos (hcond.mpr hcon)]
  · intro ⟨h1, h2, h3⟩
    have hcf : ¬((!jsTruthy (vnum (toNumberJS (vstr f.value))) ||
        !jsTruthy (vstr f.desc)) = true) := by
      rw [hcond]
      push_neg
      exact ⟨h1, h2, h3⟩
    rw [hcl, if_neg hcf]
  · intro hd
    refine ⟨?_, rfl⟩
    rw [hcl, if_pos (hcond.mpr (Or.inr (Or.inr hd)))]
  · intro hd
    have : jget (entryItem f (toNumberJS (vstr f.value)) i t) ("date") =
        jsOr (vstr f.date) (vstr t) := rfl
    rw [this, hd, jsOr_neg]
    rfl
  · intro hd
    have : jget (entryItem f (toNumberJS (vstr f.value)) i t) ("date") =
        jsOr (vstr f.date) (vstr t) := rfl
    rw [this, jsOr_pos]
    simp [jsTruthy, hd]

/-- Concrete instance of C4: the spec's example `addLedgerItem(Expense, 0,
"coffee", "Food")` is rejected, and an income of 150 with an empty date
field is prepended with today's date. -/
theorem c4_addEntry_validation_witness :
    addEntry ⟨("expense"), ("0"), ("coffee"), ("Food"), ("")⟩ ("e1") ("2026-01-02") initState =
      some (initState, true) ∧
    addEntry ⟨("income"), ("150"), ("pay"), ("Salário"), ("")⟩ ("e1") ("2026-01-02") initState =
      some (⟨DEFAULT_USER, SAMPLE_CATEGORIES,
        varr [entryItem ⟨("income"), ("150"), ("pay"), ("Salário"), ("")⟩
          (JNum.fin 150) ("e1") ("2026-01-02")], varr [], varr [], varr []⟩, false) ∧
    jget (entryItem ⟨("income"), ("150"), ("pay"), ("Salário"), ("")⟩
        (JNum.fin 150) ("e1") ("2026-01-02")) ("date") = vstr ("2026-01-02") := by
  refine ⟨?_, ?_, ?_⟩
  · exact (c4_addEntry_validation ⟨("expense"), ("0"), ("coffee"), ("Food"), ("")⟩
      ("e1") ("2026-01-02") initState [] [] rfl rfl).1.mpr
      (Or.inl (by with_unfolding_all rfl))
  · have h := (c4_addEntry_validation ⟨("income"), ("150"), ("pay"), ("Salário"), ("")⟩
      ("e1") ("2026-01-02") initState [] [] rfl rfl).2.1
      ⟨by with_unfolding_all decide, by with_unfolding_all decide, by decide⟩
    exact h.trans (by with_unfolding_all rfl)
  · have h := (c4_addEntry_validation ⟨("income"), ("150"), ("pay"), ("Salário"), ("")⟩
      ("e1") ("2026-01-02") initState [] [] rfl rfl).2.2.2.2.1 rfl
    exact (by with_unfolding_all rfl :
      jget (entryItem ⟨("income"), ("150"), ("pay"), ("Salário"), ("")⟩
        (JNum.fin 150) ("e1") ("2026-01-02")) ("date") =
      jget (entryItem ⟨("income"), ("150"), ("pay"), ("Salário"), ("")⟩
        (toNumberJS (vstr ("150"))) ("e1") ("2026-01-02")) ("date")).trans h

/-- Closed form of addGoal on a state whose goal collection is an array. -/
theorem addGoal_closed (gf : GoalForm) (i : String) (s : StoreState)
    (gs : List JSV) (hg : s.goals = varr gs) :
    addGoal gf i s =
      if (!jsTruthy (vstr gf.name) || !jsTruthy (vnum (toNumberJS (vstr gf.price)))) = true
      then some (s, true)
      else some (⟨s.user, s.categories, s.entries, s.expenses,
        varr (goalItem gf (toNumberJS (vstr gf.price)) i :: gs), s.fixedCosts⟩, false) := by
  rw [addGoal]
  by_cases hc : (!jsTruthy (vstr gf.name) || !jsTruthy (vnum (toNumberJS (vstr gf.price)))) = true
  · rw [if_pos hc, if_pos hc]
  · rw [if_neg hc, if_neg hc, hg]
    rfl

/-- The goal prepended by the C6 counterexample: a negative price is stored. -/
def c6State : StoreState :=
  ⟨DEFAULT_USER, SAMPLE_CATEGORIES, varr [], varr [],
   varr [vobj [(("id"), vstr ("g1")), (("name"), vstr ("Bike")),
               (("price"), vnum (JNum.fin (-5))), (("priority"), vstr ("Alta")),
               (("bought"), vbool false)]], varr []⟩

/-- C6 counterexample: `addGoal("Bike", -5, "Alta")` succeeds although -5 is
not positive — the goal is prepended and no rejection happens, contradicting
"fails if price is not positive". -/
theorem c6_addGoal_counterexample :
    addGoal ⟨("Bike"), ("-5"), ("Alta")⟩ ("g1") initState = some (c6State, false) ∧
    addGoal ⟨("Bike"), ("-5"), ("Alta")⟩ ("g1") initState ≠ some (initState, true) ∧
    ¬ (0 < (-5 : ℚ)) := by
  have hcomp : addGoal ⟨("Bike"), ("-5"), ("Alta")⟩ ("g1") initState =
      some (c6State, false) := by with_unfolding_all rfl
  refine ⟨hcomp, ?_, by norm_num⟩
  intro h
  rw [hcomp] at h
  injection h with h
  exact Bool.noConfusion (congrArg Prod.snd h)

/-- C6 amended: addGoal is rejected exactly when the name is empty or the
coerced price is 0 or NaN — a negative price is accepted — and on success
it prepends a new Goal with `bought = false`, the given name and priority,
and the numeric price. -/
theorem c6_addGoal_amended (gf : GoalForm) (i : String) (s : StoreState)
    (gs : List JSV) (hg : s.goals = varr gs) :
    (addGoal gf i s = some (s, true) ↔
      (gf.name = ("") ∨ toNumberJS (vstr gf.price) = JNum.fin 0 ∨
       toNumberJS (vstr gf.price) = JNum.nan)) ∧
    ((gf.name ≠ ("") ∧ toNumberJS (vstr gf.price) ≠ JNum.fin 0 ∧
      toNumberJS (vstr gf.price) ≠ JNum.nan) →
      addGoal gf i s = some (⟨s.user, s.categories, s.entries, s.expenses,
        varr (goalItem gf (toNumberJS (vstr gf.price)) i :: gs), s.fixedCosts⟩, false)) := by
  have hcl := addGoal_closed gf i s gs hg
  have hcond : ((!jsTruthy (vstr gf.name) ||
      !jsTruthy (vnum (toNumberJS (vstr gf.price)))) = true) ↔
      (gf.name = ("") ∨ toNumberJS (vstr gf.price) = JNum.fin 0 ∨
       toNumberJS (vstr gf.price) = JNum.nan) := by
    rw [validation_bool_iff, num_falsy_iff, str_falsy_iff]
  constructor
  · constructor
    · intro hadd
      by_contra hcon
      rw [← hcond] at hcon
      rw [hcl, if_neg hcon] at hadd
      injection hadd with hadd
      exact Bool.noConfusion (congrArg Prod.snd hadd)
    · intro hcon
      rw [hcl, if_pos (hcond.mpr hcon)]
  · intro ⟨h1, h2, h3⟩
    have hcf : ¬((!jsTruthy (vstr gf.name) ||
        !jsTruthy (vnum (toNumberJS (vstr gf.price)))) = true) := by
      rw [hcond]
      push_neg
      exact ⟨h1, h2, h3⟩
    rw [hcl, if_neg hcf]

/-- Concrete instance of the amended C6: a goal with price 1500 is added
with `bought = false`, and a goal with price 0 is rejected. -/
theorem c6_addGoal_amended_witness :
    addGoal ⟨("Bike"), ("1500"), ("Alta")⟩ ("g1") initState =
      some (⟨DEFAULT_USER, SAMPLE_CATEGORIES, varr [], varr [],
        varr [goalItem ⟨("Bike"), ("1500"), ("Alta")⟩ (JNum.fin 1500) ("g1")],
        varr []⟩, false) ∧
    addGoal ⟨("Bike"), ("0"), ("Alta")⟩ ("g2") initState = some (initState, true) := by
  constructor
  · have h := (c6_addGoal_amended ⟨("Bike"), ("1500"), ("Alta")⟩ ("g1") initState [] rfl).2
      ⟨by decide, by with_unfolding_all decide, by with_unfolding_all decide⟩
    exact h.trans (by with_unfolding_all rfl)
  · exact (c6_addGoal_amended ⟨("Bike"), ("0"), ("Alta")⟩ ("g2") initState [] rfl).1.mpr
      (Or.inr (Or.inl (by with_unfolding_all rfl)))

/-- The income list holding one item whose stored value is the non-numeric
string "abc" (such a state is reachable by importing it). -/
def c5State : StoreState :=
  ⟨DEFAULT_USER, SAMPLE_CATEGORIES, varr [vobj [(("value"), vstr ("abc"))]],
   varr [], varr [], varr []⟩

/-- C5 counterexample: a stored truthy non-numeric value is NOT coerced to 0
— `Number("abc" || 0)` is NaN, so the whole total becomes NaN instead of the
finite sum 0 that the claim predicts. -/
theorem c5_coercion_counterexample :
    totalIncome c5State = some JNum.nan ∧
    sumSpec c5State.entries = JNum.fin 0 ∧
    (some JNum.nan : Option JNum) ≠ some (JNum.fin 0) := by
  refine ⟨by with_unfolding_all rfl, by with_unfolding_all rfl, by decide⟩

theorem jadd_zero (a : JNum) : jadd a (JNum.fin 0) = a := by
  cases a with
  | nan => rfl
  | inf => rfl
  | ninf => rfl
  | fin q =>
    rw [jadd_fin, add_zero]

theorem jadd_nan (a : JNum) : jadd a JNum.nan = JNum.nan := by
  cases a <;> rfl

theorem reduceGo_append (pre rest : List JSV) (acc : JNum) :
    reduceGo (pre ++ rest) acc =
      (reduceGo pre acc).bind (fun a => reduceGo rest a) := by
  induction pre generalizing acc with
  | nil => simp [reduceGo]
  | cons e es ih =>
    rw [List.cons_append, reduceGo, reduceGo]
    cases valueContrib e with
    | none => rfl
    | some n => exact ih (jadd acc n)

theorem reduceGo_some (xs : List JSV) (acc : JNum)
    (h : ∀ e ∈ xs, e ≠ vnull ∧ e ≠ vundef) :
    ∃ a2, reduceGo xs acc = some a2 := by
  induction xs generalizing acc with
  | nil => exact ⟨acc, rfl⟩
  | cons e es ih =>
    obtain ⟨h1, h2⟩ := h e (List.mem_cons_self e es)
    rw [reduceGo, valueContrib, jgetE_of_ne e ("value") h1 h2]
    exact ih _ (fun x hx => h x (List.mem_cons_of_mem _ hx))

theorem reduceGo_from_nan (xs : List JSV)
    (h : ∀ e ∈ xs, e ≠ vnull ∧ e ≠ vundef) :
    reduceGo xs JNum.nan = some JNum.nan := by
  induction xs with
  | nil => rfl
  | cons e es ih =>
    obtain ⟨h1, h2⟩ := h e (List.mem_cons_self e es)
    rw [reduceGo, valueContrib, jgetE_of_ne e ("value") h1 h2]
    show reduceGo es (jadd JNum.nan _) = some JNum.nan
    have : jadd JNum.nan (toNumberJS (jsOr (jget e ("value")) (vnum (JNum.fin 0)))) =
        JNum.nan := by
      cases toNumberJS (jsOr (jget e ("value")) (vnum (JNum.fin 0))) <;> rfl
    rw [this]
    exact ih (fun x hx => h x (List.mem_cons_of_mem _ hx))

/-- C5 amended: in the reduce `s + Number(e.value || 0)`, a stored value
that is falsy (null, undefined, 0, NaN, false, empty string) is coerced to
0 and contributes nothing to the total; but a truthy stored value that
coerces to NaN (such as the string "abc") is not coerced to 0 — it makes
the whole total NaN. -/
theorem c5_value_coercion_amended (w : JSV) (pre post : List JSV) :
    (jsTruthy w = false →
      reduceValues (varr (pre ++ vobj [(("value"), w)] :: post)) =
        reduceValues (varr (pre ++ post))) ∧
    (jsTruthy w = true → toNumberJS w = JNum.nan →
      (∀ e ∈ pre ++ post, e ≠ vnull ∧ e ≠ vundef) →
      reduceValues (varr (pre ++ vobj [(("value"), w)] :: post)) = some JNum.nan) := by
  constructor
  · intro hw
    rw [reduceValues, reduceValues, reduceGo_append, reduceGo_append]
    cases reduceGo pre (JNum.fin 0) with
    | none => rfl
    | some a =>
      rw [Option.some_bind, Option.some_bind, reduceGo]
      have hc : valueContrib (vobj [(("value"), w)]) = some (JNum.fin 0) := by
        rw [valueContrib]
        have : jgetE (vobj [(("value"), w)]) ("value") = some w := rfl
        rw [this, Option.map_some', jsOr_neg _ _ hw]
        rfl
      rw [hc]
      show reduceGo post (jadd a (JNum.fin 0)) = reduceGo post a
      rw [jadd_zero]
  · intro hw hnan hacc
    rw [reduceValues, reduceGo_append]
    have hpre : ∀ e ∈ pre, e ≠ vnull ∧ e ≠ vundef :=
      fun e hme => hacc e (List.mem_append_left _ hme)
    have hpost : ∀ e ∈ post, e ≠ vnull ∧ e ≠ vundef :=
      fun e hme => hacc e (List.mem_append_right _ hme)
    obtain ⟨a, ha⟩ := reduceGo_some pre (JNum.fin 0) hpre
    rw [ha, Option.some_bind, reduceGo]
    have hc : valueContrib (vobj [(("value"), w)]) = some JNum.nan := by
      rw [valueContrib]
      have : jgetE (vobj [(("value"), w)]) ("value") = some w := rfl
      rw [this, Option.map_some', jsOr_pos _ _ hw, hnan]
    rw [hc]
    show reduceGo post (jadd a JNum.nan) = some JNum.nan
    rw [jadd_nan]
    exact reduceGo_from_nan post hpost

/-- Concrete instances of the amended C5: a falsy null value contributes
nothing, a truthy non-numeric string poisons the total to NaN. -/
theorem c5_value_coercion_amended_witness :
    reduceValues (varr [vobj [(("value"), vnull)]]) = reduceValues (varr []) ∧
    reduceValues (varr [vobj [(("value"), vstr ("abc"))]]) = some JNum.nan := by
  constructor
  · exact (c5_value_coercion_amended vnull [] []).1 rfl
  · exact (c5_value_coercion_amended (vstr ("abc")) [] []).2 rfl
      (by with_unfolding_all rfl) (by simp)

/-! The toggleGoal handler (C8). -/

theorem lookupField_setField_self (fs : List (String × JSV)) (k : String) (v : JSV) :
    lookupField (setField fs k v) k = v := by
  induction fs with
  | nil => simp [setField, lookupField]
  | cons p fs ih =>
    cases p with
    | mk k2 w =>
      rw [setField]
      by_cases hk : k2 = k
      · rw [if_pos hk, lookupField, if_pos rfl]
      · rw [if_neg hk, lookupField, if_neg hk]
        exact ih

theorem lookupField_setField_ne (fs : List (String × JSV)) (k k3 : String) (v : JSV)
    (h : k ≠ k3) : lookupField (setField fs k v) k3 = lookupField fs k3 := by
  induction fs with
  | nil => simp [setField, lookupField, h]
  | cons p fs ih =>
    cases p with
    | mk k2 w =>
      rw [setField]
      by_cases hk : k2 = k
      · rw [if_pos hk, lookupField, if_neg h, lookupField]
        rw [hk, if_neg (by rw [← hk] at h ⊢; exact h)]
      · rw [if_neg hk, lookupField, lookupField]
        by_cases hk3 : k2 = k3
        · rw [if_pos hk3, if_pos hk3]
        · rw [if_neg hk3, if_neg hk3]
          exact ih

theorem setField_setField (fs : List (String × JSV)) (k : String) (v w : JSV) :
    setField (setField fs k v) k w = setField fs k w := by
  induction fs with
  | nil => simp [setField]
  | cons p fs ih =>
    cases p with
    | mk k2 u =>
      rw [setField]
      by_cases hk : k2 = k
      · rw [if_pos hk, setField, if_pos rfl, setField, if_pos hk]
      · rw [if_neg hk, setField, if_neg hk, setField, if_neg hk, ih]

theorem setField_of_lookup (fs : List (String × JSV)) (k : String) (v : JSV)
    (hv : lookupField fs k = v) (hne : v ≠ vundef) : setField fs k v = fs := by
  induction fs with
  | nil =>
    rw [lookupField] at hv
    exact absurd hv.symm hne
  | cons p fs ih =>
    cases p with
    | mk k2 w =>
      rw [lookupField] at hv
      rw [setField]
      by_cases hk : k2 = k
      · rw [if_pos hk] at hv ⊢
        rw [hk, hv]
      · rw [if_neg hk] at hv ⊢
        rw [ih hv]

theorem toggleOne_not_matched (id : String) (g : JSV)
    (h1 : g ≠ vnull) (h2 : g ≠ vundef)
    (hm : jsIsStr (jget g ("id")) id = false) : toggleOne id g = some g := by
  rw [toggleOne, jgetE_of_ne g ("id") h1 h2]
  show (if jsIsStr (jget g ("id")) id = true then _ else some g) = some g
  rw [if_neg (by rw [hm]; simp)]

theorem toggleOne_matched (id : String) (fs : List (String × JSV)) (b : Bool)
    (hm : jsIsStr (lookupField fs ("id")) id = true)
    (hb : lookupField fs ("bought") = vbool b) :
    toggleOne id (vobj fs) = some (vobj (setField fs ("bought") (vbool (!b)))) := by
  rw [toggleOne]
  have hget : jgetE (vobj fs) ("id") = some (lookupField fs ("id")) := rfl
  rw [hget]
  show (if jsIsStr (lookupField fs ("id")) id = true then
    some (jsObjSpreadSet (vobj fs) ("bought")
      (vbool (!jsTruthy (jget (vobj fs) ("bought"))))) else _) = _
  rw [if_pos hm]
  have hjb : jget (vobj fs) ("bought") = vbool b := hb
  rw [hjb]
  rfl

theorem mapToggle_spec (id : String) (gs : List JSV)
    (hobj : ∀ g ∈ gs, g ≠ vnull ∧ g ≠ vundef)
    (hb : ∀ g ∈ gs, jsIsStr (jget g ("id")) id = true →
      ∃ fs b, g = vobj fs ∧ lookupField fs ("bought") = vbool b) :
    ∃ ys, mapToggle id gs = some ys ∧ mapToggle id ys = some gs ∧
      List.Forall₂ (fun g g2 =>
        (jsIsStr (jget g ("id")) id = true →
          jget g2 ("bought") = vbool (!jsTruthy (jget g ("bought")))) ∧
        (jsIsStr (jget g ("id")) id = false → g2 = g)) gs ys ∧
      ((∀ g ∈ gs, jsIsStr (jget g ("id")) id = false) → ys = gs) := by
  induction gs with
  | nil => exact ⟨[], rfl, rfl, List.Forall₂.nil, fun _ => rfl⟩
  | cons g gs ih =>
    obtain ⟨h1, h2⟩ := hobj g (List.mem_cons_self g gs)
    obtain ⟨ys, hf, hbw, hrel, hno⟩ :=
      ih (fun x hx => hobj x (List.mem_cons_of_mem _ hx))
         (fun x hx => hb x (List.mem_cons_of_mem _ hx))
    by_cases hm : jsIsStr (jget g ("id")) id = true
    · obtain ⟨fs, b, hgfs, hbought⟩ := hb g (List.mem_cons_self g gs) hm
      subst hgfs
      have hmf : jsIsStr (lookupField fs ("id")) id = true := hm
      have f1 : toggleOne id (vobj fs) =
          some (vobj (setField fs ("bought") (vbool (!b)))) :=
        toggleOne_matched id fs b hmf hbought
      have hid2 : lookupField (setField fs ("bought") (vbool (!b))) ("id") =
          lookupField fs ("id") :=
        lookupField_setField_ne fs ("bought") ("id") (vbool (!b)) (by decide)
      have hmf2 : jsIsStr (lookupField (setField fs ("bought") (vbool (!b))) ("id"))
          id = true := by rw [hid2]; exact hmf
      have hb2 : lookupField (setField fs ("bought") (vbool (!b))) ("bought") =
          vbool (!b) := lookupField_setField_self fs ("bought") (vbool (!b))
      have f2 : toggleOne id (vobj (setField fs ("bought") (vbool (!b)))) =
          some (vobj fs) := by
        have h3 := toggleOne_matched id (setField fs ("bought") (vbool (!b))) (!b)
          hmf2 hb2
        rw [h3, setField_setField, Bool.not_not,
          setField_of_lookup fs ("bought") (vbool b) hbought (by simp)]
      refine ⟨vobj (setField fs ("bought") (vbool (!b))) :: ys, ?_, ?_, ?_, ?_⟩
      · rw [mapToggle, f1, hf]
        rfl
      · rw [mapToggle, f2, hbw]
        rfl
      · refine List.Forall₂.cons ⟨fun _ => ?_, fun hcon => ?_⟩ hrel
        · have : jget (vobj (setField fs ("bought") (vbool (!b)))) ("bought") =
              vbool (!b) := hb2
          rw [this]
          have : jget (vobj fs) ("bought") = vbool b := hbought
          rw [this]
          rfl
        · rw [hm] at hcon
          exact Bool.noConfusion hcon
      · intro hall
        have := hall (vobj fs) (List.mem_cons_self _ gs)
        rw [hm] at this
        exact Bool.noConfusion this
    · rw [Bool.not_eq_true] at hm
      have f1 : toggleOne id g = some g := toggleOne_not_matched id g h1 h2 hm
      refine ⟨g :: ys, ?_, ?_, ?_, ?_⟩
      · rw [mapToggle, f1, hf]
        rfl
      · rw [mapToggle, f1, hbw]
        rfl
      · refine List.Forall₂.cons ⟨fun hcon => ?_, fun _ => rfl⟩ hrel
        · rw [hm] at hcon
          exact Bool.noConfusion hcon
      · intro hall
        rw [hno (fun x hx => hall x (List.mem_cons_of_mem _ hx))]

/-- C8: on a goal list whose elements are dereferenceable and whose matched
goals carry a boolean `bought` flag, toggleGoal flips `bought` on every goal
with the given id, leaves the others untouched, is an involution (a second
toggle restores the original state exactly), and is a no-op when no goal
has the id. -/
theorem c8_toggleGoal_involution (s : StoreState) (gs : List JSV) (id : String)
    (hg : s.goals = varr gs)
    (hobj : ∀ g ∈ gs, g ≠ vnull ∧ g ≠ vundef)
    (hb : ∀ g ∈ gs, jsIsStr (jget g ("id")) id = true →
      ∃ fs b, g = vobj fs ∧ lookupField fs ("bought") = vbool b) :
    (toggleGoal id s ≠ none) ∧
    (∀ s2, toggleGoal id s = some s2 → toggleGoal id s2 = some s) ∧
    (∀ s2 ys, toggleGoal id s = some s2 → s2.goals = varr ys →
      List.Forall₂ (fun g g2 =>
        (jsIsStr (jget g ("id")) id = true →
          jget g2 ("bought") = vbool (!jsTruthy (jget g ("bought")))) ∧
        (jsIsStr (jget g ("id")) id = false → g2 = g)) gs ys) ∧
    ((∀ g ∈ gs, jsIsStr (jget g ("id")) id = false) → toggleGoal id s = some s) := by
  obtain ⟨u, c, en, ex, gl, fc⟩ := s
  simp only at hg
  subst hg
  obtain ⟨ys, hf, hbw, hrel, hno⟩ := mapToggle_spec id gs hobj hb
  have ht1 : toggleGoal id ⟨u, c, en, ex, varr gs, fc⟩ =
      some ⟨u, c, en, ex, varr ys, fc⟩ := by
    show (mapToggle id gs).map _ = _
    rw [hf]
    rfl
  have ht2 : toggleGoal id ⟨u, c, en, ex, varr ys, fc⟩ =
      some ⟨u, c, en, ex, varr gs, fc⟩ := by
    show (mapToggle id ys).map _ = _
    rw [hbw]
    rfl
  refine ⟨by rw [ht1]; simp, ?_, ?_, ?_⟩
  · intro s2 h
    rw [ht1] at h
    injection h with h
    subst h
    exact ht2
  · intro s2 ys2 h hgy
    rw [ht1] at h
    injection h with h
    subst h
    simp only at hgy
    injection hgy with hgy
    subst hgy
    exact hrel
  · intro hall
    rw [ht1, hno hall]

/-- The witness states of C8: the goal of `addGoal("Bike", 1500, "Alta")`
before and after one toggle. -/
def c8StateA : StoreState :=
  ⟨DEFAULT_USER, SAMPLE_CATEGORIES, varr [], varr [],
   varr [vobj [(("id"), vstr ("g1")), (("name"), vstr ("Bike")),
               (("price"), vnum (JNum.fin 1500)), (("priority"), vstr ("Alta")),
               (("bought"), vbool false)]], varr []⟩

/-- The same state with `bought` flipped to true. -/
def c8StateB : StoreState :=
  ⟨DEFAULT_USER, SAMPLE_CATEGORIES, varr [], varr [],
   varr [vobj [(("id"), vstr ("g1")), (("name"), vstr ("Bike")),
               (("price"), vnum (JNum.fin 1500)), (("priority"), vstr ("Alta")),
               (("bought"), vbool true)]], varr []⟩

/-- Concrete instance of C8: toggling the goal sets `bought = true`, and a
second toggle restores the original state. -/
theorem c8_toggleGoal_involution_witness :
    toggleGoal ("g1") c8StateA = some c8StateB ∧
    toggleGoal ("g1") c8StateB = some c8StateA := by
  have h := c8_toggleGoal_involution c8StateA
    [vobj [(("id"), vstr ("g1")), (("name"), vstr ("Bike")),
           (("price"), vnum (JNum.fin 1500)), (("priority"), vstr ("Alta")),
           (("bought"), vbool false)]] ("g1") rfl
    (by intro g hgm; rw [List.mem_singleton] at hgm; subst hgm; exact ⟨by simp, by simp⟩)
    (by
      intro g hgm hmt
      rw [List.mem_singleton] at hgm
      subst hgm
      exact ⟨_, false, rfl, rfl⟩)
  have h1 : toggleGoal ("g1") c8StateA = some c8StateB := by with_unfolding_all rfl
  exact ⟨h1, h.2.1 c8StateB h1⟩

/-! Field-by-field defaulting on load and import (C9, C10). -/

theorem jsOr_undef (b : JSV) : jsOr vundef b = b := rfl

/-- C9: load applies defaults field-by-field.  On an otherwise-valid
persisted document, each missing top-level field falls back to its
documented default — a document without the fixedCosts key loads with the
empty fixed-cost collection, not an error — while each present
schema-shaped field (an object for user, arrays for the five collections)
is taken verbatim from the document. -/
theorem c9_load_field_defaults (raw : String) (fs : List (String × JSV))
    (s : StoreState) (h0 : raw ≠ ("")) (hp : parseJSON raw = some (vobj fs)) :
    (lookupField fs ("user") = vundef → (load (some raw) s).user = DEFAULT_USER) ∧
    (∀ l, lookupField fs ("user") = vobj l → (load (some raw) s).user = vobj l) ∧
    (lookupField fs ("categories") = vundef →
      (load (some raw) s).categories = SAMPLE_CATEGORIES) ∧
    (∀ l, lookupField fs ("categories") = varr l →
      (load (some raw) s).categories = varr l) ∧
    (lookupField fs ("entries") = vundef → (load (some raw) s).entries = varr []) ∧
    (∀ l, lookupField fs ("entries") = varr l → (load (some raw) s).entries = varr l) ∧
    (lookupField fs ("expenses") = vundef → (load (some raw) s).expenses = varr []) ∧
    (∀ l, lookupField fs ("expenses") = varr l → (load (some raw) s).expenses = varr l) ∧
    (lookupField fs ("goals") = vundef → (load (some raw) s).goals = varr []) ∧
    (∀ l, lookupField fs ("goals") = varr l → (load (some raw) s).goals = varr l) ∧
    (lookupField fs ("fixedCosts") = vundef →
      (load (some raw) s).fixedCosts = varr []) ∧
    (∀ l, lookupField fs ("fixedCosts") = varr l →
      (load (some raw) s).fixedCosts = varr l) := by
  have hl : load (some raw) s =
      ⟨jsOr (lookupField fs ("user")) DEFAULT_USER,
       jsOr (lookupField fs ("categories")) SAMPLE_CATEGORIES,
       jsOr (lookupField fs ("entries")) (varr []),
       jsOr (lookupField fs ("expenses")) (varr []),
       jsOr (lookupField fs ("goals")) (varr []),
       jsOr (lookupField fs ("fixedCosts")) (varr [])⟩ := by
    rw [load, if_neg h0, hp]
    rfl
  rw [hl]
  refine ⟨?_, ?_, ?_, ?_, ?_, ?_, ?_, ?_, ?_, ?_, ?_, ?_⟩
  · intro h
    show jsOr (lookupField fs ("user")) DEFAULT_USER = DEFAULT_USER
    rw [h]
    rfl
  · intro l h
    show jsOr (lookupField fs ("user")) DEFAULT_USER = vobj l
    rw [h]
    rfl
  · intro h
    show jsOr (lookupField fs ("categories")) SAMPLE_CATEGORIES = SAMPLE_CATEGORIES
    rw [h]
    rfl
  · intro l h
    show jsOr (lookupField fs ("categories")) SAMPLE_CATEGORIES = varr l
    rw [h]
    rfl
  · intro h
    show jsOr (lookupField fs ("entries")) (varr []) = varr []
    rw [h]
    rfl
  · intro l h
    show jsOr (lookupField fs ("entries")) (varr []) = varr l
    rw [h]
    rfl
  · intro h
    show jsOr (lookupField fs ("expenses")) (varr []) = varr []
    rw [h]
    rfl
  · intro l h
    show jsOr (lookupField fs ("expenses")) (varr []) = varr l
    rw [h]
    rfl
  · intro h
    show jsOr (lookupField fs ("goals")) (varr []) = varr []
    rw [h]
    rfl
  · intro l h
    show jsOr (lookupField fs ("goals")) (varr []) = varr l
    rw [h]
    rfl
  · intro h
    show jsOr (lookupField fs ("fixedCosts")) (varr []) = varr []
    rw [h]
    rfl
  · intro l h
    show jsOr (lookupField fs ("fixedCosts")) (varr []) = varr l
    rw [h]
    rfl

/-- Concrete instance of C9: loading a stored document containing only an
(empty) entries array yields empty fixedCosts, the entries from the
document, and the default profile. -/
theorem c9_load_field_defaults_witness :
    (load (some ("\x7b\"entries\":[]\x7d")) initState).fixedCosts = varr [] ∧
    (load (some ("\x7b\"entries\":[]\x7d")) initState).entries = varr [] ∧
    (load (some ("\x7b\"entries\":[]\x7d")) initState).user = DEFAULT_USER := by
  have h := c9_load_field_defaults ("\x7b\"entries\":[]\x7d") [(("entries"), varr [])]
    initState (by decide) (by with_unfolding_all rfl)
  exact ⟨h.2.2.2.2.2.2.2.2.2.2.1 (by with_unfolding_all rfl),
         h.2.2.2.2.2.1 [] (by with_unfolding_all rfl),
         h.1 (by with_unfolding_all rfl)⟩

/-- C10: on importing a parsed document (and identically on load, which
shares the same per-field assignments), a present top-level field whose
value is falsy — null, false, 0, NaN or the empty string, not only an
absent field — is replaced by its default; the import succeeds with the
success alert. -/
theorem c10_falsy_field_defaults (fs : List (String × JSV)) (s : StoreState) :
    (importTree (some (vobj fs)) s).2 = true ∧
    (jsTruthy (lookupField fs ("user")) = false →
      (importTree (some (vobj fs)) s).1.user = DEFAULT_USER) ∧
    (jsTruthy (lookupField fs ("categories")) = false →
      (importTree (some (vobj fs)) s).1.categories = SAMPLE_CATEGORIES) ∧
    (jsTruthy (lookupField fs ("entries")) = false →
      (importTree (some (vobj fs)) s).1.entries = varr []) ∧
    (jsTruthy (lookupField fs ("expenses")) = false →
      (importTree (some (vobj fs)) s).1.expenses = varr []) ∧
    (jsTruthy (lookupField fs ("goals")) = false →
      (importTree (some (vobj fs)) s).1.goals = varr []) ∧
    (jsTruthy (lookupField fs ("fixedCosts")) = false →
      (importTree (some (vobj fs)) s).1.fixedCosts = varr []) ∧
    (∀ raw, raw ≠ ("") → parseJSON raw = some (vobj fs) →
      load (some raw) s = (importTree (some (vobj fs)) s).1) := by
  refine ⟨rfl, ?_, ?_, ?_, ?_, ?_, ?_, ?_⟩
  · intro h
    show jsOr (lookupField fs ("user")) DEFAULT_USER = DEFAULT_USER
    rw [jsOr_neg _ _ h]
  · intro h
    show jsOr (lookupField fs ("categories")) SAMPLE_CATEGORIES = SAMPLE_CATEGORIES
    rw [jsOr_neg _ _ h]
  · intro h
    show jsOr (lookupField fs ("entries")) (varr []) = varr []
    rw [jsOr_neg _ _ h]
  · intro h
    show jsOr (lookupField fs ("expenses")) (varr []) = varr []
    rw [jsOr_neg _ _ h]
  · intro h
    show jsOr (lookupField fs ("goals")) (varr []) = varr []
    rw [jsOr_neg _ _ h]
  · intro h
    show jsOr (lookupField fs ("fixedCosts")) (varr []) = varr []
    rw [jsOr_neg _ _ h]
  · intro raw h0 hp
    rw [load, if_neg h0, hp]
    rfl

/-! The export/import round trip (C2): invariants of reachable states. -/

/-- A well-behaved top-level field of a reachable state: truthy (so the
`|| default` of a later import keeps it) and without undefined inside (so
JSON.stringify reproduces it shape-for-shape). -/
def goodField (v : JSV) : Prop := jsTruthy v = true ∧ noUndefV v = true

/-- All six top-level fields are well behaved. -/
def GoodState (s : StoreState) : Prop :=
  goodField s.user ∧ goodField s.categories ∧ goodField s.entries ∧
  goodField s.expenses ∧ goodField s.goals ∧ goodField s.fixedCosts

theorem noUndefL_strChars (l : List Char) :
    noUndefL (l.map (fun c => vstr (String.singleton c))) = true := by
  induction l with
  | nil => rfl
  | cons c cs ih => simp [noUndefL, ih, noUndefV]

theorem jsSpreadCons_good (it c c2 : JSV) (hit : noUndefV it = true)
    (hc : noUndefV c = true) (h : jsSpreadCons it c = some c2) : goodField c2 := by
  cases c with
  | varr xs =>
    injection h with h
    subst h
    refine ⟨rfl, ?_⟩
    show noUndefL (it :: xs) = true
    rw [noUndefL, hit]
    simpa [noUndefV] using hc
  | vstr t =>
    injection h with h
    subst h
    refine ⟨rfl, ?_⟩
    show noUndefL (it :: t.toList.map (fun c => vstr (String.singleton c))) = true
    rw [noUndefL, hit, noUndefL_strChars]
    rfl
  | vnull => exact Option.noConfusion h
  | vundef => exact Option.noConfusion h
  | vbool b => exact Option.noConfusion h
  | vnum n => exact Option.noConfusion h
  | vobj fs => exact Option.noConfusion h

theorem jsFilterIdNe_good (id : String) (c c2 : JSV) (hc : noUndefV c = true)
    (h : jsFilterIdNe id c = some c2) : goodField c2 := by
  cases c with
  | varr xs =>
    rw [jsFilterIdNe] at h
    cases hr : filterIdNe id xs with
    | none =>
      rw [hr] at h
      exact Option.noConfusion h
    | some ys =>
      rw [hr, Option.map_some'] at h
      injection h with h
      subst h
      refine ⟨rfl, ?_⟩
      show noUndefL ys = true
      rw [noUndefL_iff]
      intro e he
      exact (noUndefL_iff xs).mp (by simpa [noUndefV] using hc) e
        (filterIdNe_sub id xs ys hr e he)
  | vnull => exact Option.noConfusion h
  | vundef => exact Option.noConfusion h
  | vbool b => exact Option.noConfusion h
  | vnum n => exact Option.noConfusion h
  | vstr t => exact Option.noConfusion h
  | vobj fs => exact Option.noConfusion h

theorem setField_noUndef (fs : List (String × JSV)) (k : String) (v : JSV)
    (hf : noUndefF fs = true) (hv : noUndefV v = true) :
    noUndefF (setField fs k v) = true := by
  induction fs with
  | nil => simp [setField, noUndefF, hv]
  | cons p fs ih =>
    cases p with
    | mk k2 w =>
      rw [noUndefF, Bool.and_eq_true] at hf
      rw [setField]
      by_cases hk : k2 = k
      · rw [if_pos hk, noUndefF, hv]
        simpa using hf.2
      · rw [if_neg hk, noUndefF, hf.1, ih hf.2]
        rfl

theorem toggleOne_noUndef (id : String) (g g2 : JSV)
    (h : toggleOne id g = some g2) (hg : noUndefV g = true) : noUndefV g2 = true := by
  rw [toggleOne] at h
  cases hget : jgetE g ("id") with
  | none =>
    rw [hget] at h
    exact Option.noConfusion h
  | some w =>
    rw [hget] at h
    have h2 : (if jsIsStr w id = true then
        some (jsObjSpreadSet g ("bought") (vbool (!jsTruthy (jget g ("bought")))))
      else some g) = some g2 := h
    by_cases hm : jsIsStr w id = true
    · rw [if_pos hm] at h2
      injection h2 with h2
      subst h2
      cases g with
      | vobj fs =>
        show noUndefF (setField fs ("bought") (vbool (!jsTruthy (jget (vobj fs) ("bought"))))) = true
        exact setField_noUndef fs ("bought") _ (by simpa [noUndefV] using hg) rfl
      | vnull => exact Option.noConfusion hget
      | vundef => exact Option.noConfusion hget
      | vbool b => rfl
      | vnum n => rfl
      | vstr t => rfl
      | varr xs => rfl
    · rw [if_neg hm] at h2
      injection h2 with h2
      subst h2
      exact hg

theorem mapToggle_noUndef (id : String) (xs ys : List JSV)
    (h : mapToggle id xs = some ys) (hx : noUndefL xs = true) : noUndefL ys = true := by
  induction xs generalizing ys with
  | nil =>
    rw [mapToggle] at h
    injection h with h
    subst h
    rfl
  | cons g gs ih =>
    rw [mapToggle] at h
    rw [noUndefL, Bool.and_eq_true] at hx
    cases ht : toggleOne id g with
    | none =>
      rw [ht] at h
      exact Option.noConfusion h
    | some g2 =>
      rw [ht] at h
      cases hr : mapToggle id gs with
      | none =>
        rw [hr] at h
        exact Option.noConfusion (show (none : Option (List JSV)) = some ys from h)
      | some r =>
        rw [hr] at h
        have h2 : some (g2 :: r) = some ys := h
        injection h2 with h2
        subst h2
        rw [noUndefL, toggleOne_noUndef id g g2 ht hx.1, ih r hr hx.2]
        rfl

theorem goodField_default_user : jsTruthy DEFAULT_USER = true ∧ noUndefV DEFAULT_USER = true :=
  ⟨rfl, by with_unfolding_all rfl⟩

theorem goodField_default_cats :
    jsTruthy SAMPLE_CATEGORIES = true ∧ noUndefV SAMPLE_CATEGORIES = true :=
  ⟨rfl, by with_unfolding_all rfl⟩

theorem goodField_empty_arr : jsTruthy (varr []) = true ∧ noUndefV (varr []) = true :=
  ⟨rfl, rfl⟩

theorem jsOr_good (w dflt : JSV) (hw : noUndefV w = true ∨ w = vundef)
    (hd : jsTruthy dflt = true ∧ noUndefV dflt = true) : goodField (jsOr w dflt) := by
  cases ht : jsTruthy w with
  | true =>
    rw [jsOr_pos _ _ ht]
    rcases hw with hw | hw
    · exact ⟨ht, hw⟩
    · rw [hw] at ht
      exact Bool.noConfusion ht
  | false =>
    rw [jsOr_neg _ _ ht]
    exact hd

theorem applyDoc_good (d : JSV) (s2 : StoreState) (hd : noUndefV d = true)
    (h : applyDoc d = some s2) : GoodState s2 := by
  have hval : ∀ k, noUndefV (jget d k) = true ∨ jget d k = vundef := by
    intro k
    rcases jget_noUndef d k hd with h1 | h1
    · exact Or.inr h1
    · exact Or.inl h1
  cases d with
  | vnull => exact Option.noConfusion h
  | vundef => exact Option.noConfusion h
  | vbool b =>
    injection h with h
    subst h
    exact ⟨jsOr_good _ _ (hval ("user")) goodField_default_user,
      jsOr_good _ _ (hval ("categories")) goodField_default_cats,
      jsOr_good _ _ (hval ("entries")) goodField_empty_arr,
      jsOr_good _ _ (hval ("expenses")) goodField_empty_arr,
      jsOr_good _ _ (hval ("goals")) goodField_empty_arr,
      jsOr_good _ _ (hval ("fixedCosts")) goodField_empty_arr⟩
  | vnum n =>
    injection h with h
    subst h
    exact ⟨jsOr_good _ _ (hval ("user")) goodField_default_user,
      jsOr_good _ _ (hval ("categories")) goodField_default_cats,
      jsOr_good _ _ (hval ("entries")) goodField_empty_arr,
      jsOr_good _ _ (hval ("expenses")) goodField_empty_arr,
      jsOr_good _ _ (hval ("goals")) goodField_empty_arr,
      jsOr_good _ _ (hval ("fixedCosts")) goodField_empty_arr⟩
  | vstr t =>
    injection h with h
    subst h
    exact ⟨jsOr_good _ _ (hval ("user")) goodField_default_user,
      jsOr_good _ _ (hval ("categories")) goodField_default_cats,
      jsOr_good _ _ (hval ("entries")) goodField_empty_arr,
      jsOr_good _ _ (hval ("expenses")) goodField_empty_arr,
      jsOr_good _ _ (hval ("goals")) goodField_empty_arr,
      jsOr_good _ _ (hval ("fixedCosts")) goodField_empty_arr⟩
  | varr xs =>
    injection h with h
    subst h
    exact ⟨jsOr_good _ _ (hval ("user")) goodField_default_user,
      jsOr_good _ _ (hval ("categories")) goodField_default_cats,
      jsOr_good _ _ (hval ("entries")) goodField_empty_arr,
      jsOr_good _ _ (hval ("expenses")) goodField_empty_arr,
      jsOr_good _ _ (hval ("goals")) goodField_empty_arr,
      jsOr_good _ _ (hval ("fixedCosts")) goodField_empty_arr⟩
  | vobj fs =>
    injection h with h
    subst h
    exact ⟨jsOr_good _ _ (hval ("user")) goodField_default_user,
      jsOr_good _ _ (hval ("categories")) goodField_default_cats,
      jsOr_good _ _ (hval ("entries")) goodField_empty_arr,
      jsOr_good _ _ (hval ("expenses")) goodField_empty_arr,
      jsOr_good _ _ (hval ("goals")) goodField_empty_arr,
      jsOr_good _ _ (hval ("fixedCosts")) goodField_empty_arr⟩

theorem entryItem_noUndef (f : EntryForm) (v : JNum) (i t : String) :
    noUndefV (entryItem f v i t) = true := by
  rw [entryItem]
  cases h : jsTruthy (vstr f.date) with
  | true => simp [jsOr, h, noUndefV, noUndefF]
  | false => simp [jsOr, h, noUndefV, noUndefF]

theorem addEntry_good (f : EntryForm) (i t : String) (s s2 : StoreState) (a : Bool)
    (he : addEntry f i t s = some (s2, a)) (hg : GoodState s) : GoodState s2 := by
  obtain ⟨g1, g2, g3, g4, g5, g6⟩ := hg
  rw [addEntry] at he
  by_cases hv : (!jsTruthy (vnum (toNumberJS (vstr f.value))) ||
      !jsTruthy (vstr f.desc)) = true
  · rw [if_pos hv] at he
    injection he with he
    injection he with he ha
    subst he
    exact ⟨g1, g2, g3, g4, g5, g6⟩
  · rw [if_neg hv] at he
    by_cases ht : f.type = ("income")
    · rw [if_pos ht] at he
      cases hsp : jsSpreadCons (entryItem f (toNumberJS (vstr f.value)) i t) s.entries with
      | none =>
        rw [hsp] at he
        exact Option.noConfusion he
      | some c2 =>
        rw [hsp, Option.map_some'] at he
        injection he with he
        rw [Prod.mk.injEq] at he
        obtain ⟨hs2, ha⟩ := he
        subst hs2
        exact ⟨g1, g2, jsSpreadCons_good _ _ _ (entryItem_noUndef f _ i t) g3.2 hsp,
          g4, g5, g6⟩
    · rw [if_neg ht] at he
      cases hsp : jsSpreadCons (entryItem f (toNumberJS (vstr f.value)) i t) s.expenses with
      | none =>
        rw [hsp] at he
        exact Option.noConfusion he
      | some c2 =>
        rw [hsp, Option.map_some'] at he
        injection he with he
        rw [Prod.mk.injEq] at he
        obtain ⟨hs2, ha⟩ := he
        subst hs2
        exact ⟨g1, g2, g3, jsSpreadCons_good _ _ _ (entryItem_noUndef f _ i t) g4.2 hsp,
          g5, g6⟩

theorem removeItem_good (id kind : String) (c : Bool) (s s2 : StoreState)
    (he : removeItem id kind c s = some s2) (hg : GoodState s) : GoodState s2 := by
  obtain ⟨g1, g2, g3, g4, g5, g6⟩ := hg
  rw [removeItem] at he
  by_cases hc : (!c) = true
  · rw [if_pos hc] at he
    injection he with he
    subst he
    exact ⟨g1, g2, g3, g4, g5, g6⟩
  · rw [if_neg hc] at he
    by_cases hk : kind = ("income")
    · subst hk
      cases hf : jsFilterIdNe id s.entries with
      | none =>
        rw [hf] at he
        exact Option.noConfusion (show (none : Option StoreState) = some s2 from he)
      | some c2 =>
        rw [hf] at he
        have he2 : some ({ s with entries := c2 } : StoreState) = some s2 := he
        injection he2 with he2
        subst he2
        exact ⟨g1, g2, jsFilterIdNe_good id _ _ g3.2 hf, g4, g5, g6⟩
    · rw [if_neg hk] at he
      by_cases hk2 : kind = ("expense")
      · subst hk2
        have he2 : Option.map (fun es => ({ s with expenses := es } : StoreState))
            (jsFilterIdNe id s.expenses) = some s2 := he
        cases hf : jsFilterIdNe id s.expenses with
        | none =>
          rw [hf] at he2
          exact Option.noConfusion (show (none : Option StoreState) = some s2 from he2)
        | some c2 =>
          rw [hf, Option.map_some'] at he2
          injection he2 with he2
          subst he2
          exact ⟨g1, g2, g3, jsFilterIdNe_good id _ _ g4.2 hf, g5, g6⟩
      · have he2 : (if kind = ("expense") then
            Option.map (fun xs => ({ s with expenses := xs } : StoreState))
              (jsFilterIdNe id s.expenses)
          else some s) = some s2 := he
        rw [if_neg hk2] at he2
        injection he2 with he2
        subst he2
        exact ⟨g1, g2, g3, g4, g5, g6⟩

theorem goalItem_noUndef (gf : GoalForm) (p : JNum) (i : String) :
    noUndefV (goalItem gf p i) = true := by
  rw [goalItem]
  simp [noUndefV, noUndefF]

theorem addGoal_good (gf : GoalForm) (i : String) (s s2 : StoreState) (a : Bool)
    (he : addGoal gf i s = some (s2, a)) (hg : GoodState s) : GoodState s2 := by
  obtain ⟨g1, g2, g3, g4, g5, g6⟩ := hg
  rw [addGoal] at he
  by_cases hv : (!jsTruthy (vstr gf.name) ||
      !jsTruthy (vnum (toNumberJS (vstr gf.price)))) = true
  · rw [if_pos hv] at he
    injection he with he
    injection he with he ha
    subst he
    exact ⟨g1, g2, g3, g4, g5, g6⟩
  · rw [if_neg hv] at he
    cases hsp : jsSpreadCons (goalItem gf (toNumberJS (vstr gf.price)) i) s.goals with
    | none =>
      rw [hsp] at he
      exact Option.noConfusion he
    | some c2 =>
      rw [hsp, Option.map_some'] at he
      injection he with he
      rw [Prod.mk.injEq] at he
      obtain ⟨hs2, ha⟩ := he
      subst hs2
      exact ⟨g1, g2, g3, g4, jsSpreadCons_good _ _ _ (goalItem_noUndef gf _ i) g5.2 hsp, g6⟩

theorem toggleGoal_good (id : String) (s s2 : StoreState)
    (he : toggleGoal id s = some s2) (hg : GoodState s) : GoodState s2 := by
  obtain ⟨g1, g2, g3, g4, g5, g6⟩ := hg
  rw [toggleGoal] at he
  cases hgl : s.goals with
  | varr xs =>
    rw [hgl] at he
    have he2 : Option.map (fun ys => ({ s with goals := varr ys } : StoreState))
        (mapToggle id xs) = some s2 := he
    cases hm : mapToggle id xs with
    | none =>
      rw [hm] at he2
      exact Option.noConfusion (show (none : Option StoreState) = some s2 from he2)
    | some ys =>
      rw [hm, Option.map_some'] at he2
      injection he2 with he2
      subst he2
      refine ⟨g1, g2, g3, g4, ⟨rfl, ?_⟩, g6⟩
      show noUndefL ys = true
      refine mapToggle_noUndef id xs ys hm ?_
      have := g5.2
      rw [hgl] at this
      simpa [noUndefV] using this
  | vnull =>
    rw [hgl] at he
    exact Option.noConfusion he
  | vundef =>
    rw [hgl] at he
    exact Option.noConfusion he
  | vbool b =>
    rw [hgl] at he
    exact Option.noConfusion he
  | vnum n =>
    rw [hgl] at he
    exact Option.noConfusion he
  | vstr t =>
    rw [hgl] at he
    exact Option.noConfusion he
  | vobj fs =>
    rw [hgl] at he
    exact Option.noConfusion he

theorem removeGoalOp_good (id : String) (s s2 : StoreState)
    (he : removeGoalOp id s = some s2) (hg : GoodState s) : GoodState s2 := by
  obtain ⟨g1, g2, g3, g4, g5, g6⟩ := hg
  rw [removeGoalOp] at he
  cases hf : jsFilterIdNe id s.goals with
  | none =>
    rw [hf] at he
    exact Option.noConfusion he
  | some c2 =>
    rw [hf, Option.map_some'] at he
    injection he with he
    subst he
    exact ⟨g1, g2, g3, g4, jsFilterIdNe_good id _ _ g5.2 hf, g6⟩

theorem removeFixedCostOp_good (id : String) (s s2 : StoreState)
    (he : removeFixedCostOp id s = some s2) (hg : GoodState s) : GoodState s2 := by
  obtain ⟨g1, g2, g3, g4, g5, g6⟩ := hg
  rw [removeFixedCostOp] at he
  cases hf : jsFilterIdNe id s.fixedCosts with
  | none =>
    rw [hf] at he
    exact Option.noConfusion he
  | some c2 =>
    rw [hf, Option.map_some'] at he
    injection he with he
    subst he
    exact ⟨g1, g2, g3, g4, g5, jsFilterIdNe_good id _ _ g6.2 hf⟩

theorem addFixedCost_good (n v : Option String) (i : String) (s s2 : StoreState)
    (he : addFixedCost n v i s = some s2) (hg : GoodState s) : GoodState s2 := by
  obtain ⟨g1, g2, g3, g4, g5, g6⟩ := hg
  cases n with
  | none =>
    have he2 : some s = some s2 := he
    injection he2 with he2
    subst he2
    exact ⟨g1, g2, g3, g4, g5, g6⟩
  | some nm =>
    cases v with
    | none =>
      have he2 : some s = some s2 := he
      injection he2 with he2
      subst he2
      exact ⟨g1, g2, g3, g4, g5, g6⟩
    | some tv =>
      have he2 : (if nm = ("") || tv = ("") then some s else
          (jsSpreadCons (vobj [(("id"), vstr i), (("name"), vstr nm),
            (("value"), vnum (toNumberJS (vstr tv)))]) s.fixedCosts).map
            (fun fc => { s with fixedCosts := fc })) = some s2 := he
      by_cases hz : (nm = ("") || tv = ("")) = true
      · rw [if_pos hz] at he2
        injection he2 with he2
        subst he2
        exact ⟨g1, g2, g3, g4, g5, g6⟩
      · rw [if_neg hz] at he2
        cases hsp : jsSpreadCons (vobj [(("id"), vstr i), (("name"), vstr nm),
            (("value"), vnum (toNumberJS (vstr tv)))]) s.fixedCosts with
        | none =>
          rw [hsp] at he2
          exact Option.noConfusion he2
        | some c2 =>
          rw [hsp, Option.map_some'] at he2
          injection he2 with he2
          subst he2
          exact ⟨g1, g2, g3, g4, g5, jsSpreadCons_good _ _ _ (by rfl) g6.2 hsp⟩

theorem addCategory_good (c : Option String) (s s2 : StoreState)
    (he : addCategory c s = some s2) (hg : GoodState s) : GoodState s2 := by
  obtain ⟨g1, g2, g3, g4, g5, g6⟩ := hg
  cases c with
  | none =>
    have he2 : some s = some s2 := he
    injection he2 with he2
    subst he2
    exact ⟨g1, g2, g3, g4, g5, g6⟩
  | some cat =>
    have he2 : (if cat = ("") then some s else
        (jsSpreadCons (vstr cat) s.categories).map
          (fun cs => { s with categories := cs })) = some s2 := he
    by_cases hz : cat = ("")
    · rw [if_pos hz] at he2
      injection he2 with he2
      subst he2
      exact ⟨g1, g2, g3, g4, g5, g6⟩
    · rw [if_neg hz] at he2
      cases hsp : jsSpreadCons (vstr cat) s.categories with
      | none =>
        rw [hsp] at he2
        exact Option.noConfusion he2
      | some c2 =>
        rw [hsp, Option.map_some'] at he2
        injection he2 with he2
        subst he2
        exact ⟨g1, jsSpreadCons_good _ _ _ (by rfl) g2.2 hsp, g3, g4, g5, g6⟩

theorem setProfileName_good (n : Option String) (s : StoreState)
    (hg : GoodState s) : GoodState (setProfileName n s) := by
  obtain ⟨g1, g2, g3, g4, g5, g6⟩ := hg
  cases n with
  | none => exact ⟨g1, g2, g3, g4, g5, g6⟩
  | some nm =>
    show GoodState (if nm = ("") then s else
      { s with user := jsObjSpreadSet s.user ("name") (vstr nm) })
    by_cases hz : nm = ("")
    · rw [if_pos hz]
      exact ⟨g1, g2, g3, g4, g5, g6⟩
    · rw [if_neg hz]
      refine ⟨?_, g2, g3, g4, g5, g6⟩
      show goodField (jsObjSpreadSet s.user ("name") (vstr nm))
      cases hu : s.user with
      | vobj fs =>
        refine ⟨rfl, ?_⟩
        show noUndefF (setField fs ("name") (vstr nm)) = true
        refine setField_noUndef fs ("name") (vstr nm) ?_ rfl
        have := g1.2
        rw [hu] at this
        simpa [noUndefV] using this
      | vnull => exact ⟨rfl, rfl⟩
      | vundef => exact ⟨rfl, rfl⟩
      | vbool b => exact ⟨rfl, rfl⟩
      | vnum m => exact ⟨rfl, rfl⟩
      | vstr t => exact ⟨rfl, rfl⟩
      | varr xs => exact ⟨rfl, rfl⟩

theorem importTree_good (d : JSV) (s : StoreState) (hd : noUndefV d = true)
    (hg : GoodState s) : GoodState (importTree (some d) s).1 := by
  rw [importTree]
  cases ha : applyDoc d with
  | none => exact hg
  | some s2 => exact applyDoc_good d s2 hd ha

/-- Every reachable state has truthy, undefined-free top-level fields. -/
theorem reach_good (s : StoreState) (h : Reach s) : GoodState s := by
  induction h with
  | init =>
    exact ⟨goodField_default_user, goodField_default_cats, goodField_empty_arr,
      goodField_empty_arr, goodField_empty_arr, goodField_empty_arr⟩
  | stepAddEntry s f i t s2 a h he ih => exact addEntry_good f i t s s2 a he ih
  | stepRemoveItem s id kind c s2 h he ih => exact removeItem_good id kind c s s2 he ih
  | stepAddGoal s gf i s2 a h he ih => exact addGoal_good gf i s s2 a he ih
  | stepToggleGoal s id s2 h he ih => exact toggleGoal_good id s s2 he ih
  | stepRemoveGoal s id s2 h he ih => exact removeGoalOp_good id s s2 he ih
  | stepAddFixedCost s n v i s2 h he ih => exact addFixedCost_good n v i s s2 he ih
  | stepRemoveFixedCost s id s2 h he ih => exact removeFixedCostOp_good id s s2 he ih
  | stepAddCategory s c s2 h he ih => exact addCategory_good c s s2 he ih
  | stepSetName s n h ih => exact setProfileName_good n s ih
  | stepImport s d h hc ih =>
    have hc2 : noUndefV d = true ∧ noNanV d = true := by
      rw [cleanV, Bool.and_eq_true] at hc
      exact hc
    exact importTree_good d s hc2.1 ih
  | stepImportFail s h ih => exact ih

/-- The round trip holds on any state with well-behaved fields all of whose
stored numbers are finite. -/
theorem roundtrip_good (s : StoreState) (hg : GoodState s)
    (hn : AllFiniteState s = true) (t : StoreState) :
    importTree (some (jrtV (exportData s))) t = (s, true) := by
  obtain ⟨⟨htu, huu⟩, ⟨htc, huc⟩, ⟨hte, hue⟩, ⟨htx, hux⟩, ⟨htg, hug⟩, ⟨htf, huf⟩⟩ := hg
  rw [AllFiniteState] at hn
  simp only [Bool.and_eq_true] at hn
  obtain ⟨⟨⟨⟨⟨hn1, hn2⟩, hn3⟩, hn4⟩, hn5⟩, hn6⟩ := hn
  have hu : noUndefV (exportData s) = true := by
    rw [exportData, payloadOf]
    show noUndefF [(("user"), s.user), (("categories"), s.categories),
      (("entries"), s.entries), (("expenses"), s.expenses), (("goals"), s.goals),
      (("fixedCosts"), s.fixedCosts)] = true
    simp [noUndefF, huu, huc, hue, hux, hug, huf]
  have hv : finNumV (exportData s) = true := by
    rw [exportData, payloadOf]
    show finNumF [(("user"), s.user), (("categories"), s.categories),
      (("entries"), s.entries), (("expenses"), s.expenses), (("goals"), s.goals),
      (("fixedCosts"), s.fixedCosts)] = true
    simp [finNumF, hn1, hn2, hn3, hn4, hn5, hn6]
  rw [jrtV_id _ hu hv]
  have happ : applyDoc (exportData s) = some
      ⟨jsOr s.user DEFAULT_USER, jsOr s.categories SAMPLE_CATEGORIES,
       jsOr s.entries (varr []), jsOr s.expenses (varr []),
       jsOr s.goals (varr []), jsOr s.fixedCosts (varr [])⟩ := rfl
  rw [importTree, happ]
  rw [jsOr_pos _ _ htu, jsOr_pos _ _ htc, jsOr_pos _ _ hte, jsOr_pos _ _ htx,
    jsOr_pos _ _ htg, jsOr_pos _ _ htf]

/-- The fixed cost recorded by addFixedCost("Luz", "abc"): its value is NaN. -/
def c2State : StoreState :=
  ⟨DEFAULT_USER, SAMPLE_CATEGORIES, varr [], varr [], varr [],
   varr [vobj [(("id"), vstr ("f1")), (("name"), vstr ("Luz")),
               (("value"), vnum JNum.nan)]]⟩

/-- C2 counterexample: the state reached by addFixedCost("Luz", "abc")
stores a NaN value; JSON.stringify prints NaN as null, so importing the
exported document yields null instead of NaN and does NOT reproduce the
exported state. -/
theorem c2_roundtrip_counterexample :
    Reach c2State ∧
    (importTree (some (jrtV (exportData c2State))) c2State).1.fixedCosts =
      varr [vobj [(("id"), vstr ("f1")), (("name"), vstr ("Luz")),
                  (("value"), vnull)]] ∧
    importTree (some (jrtV (exportData c2State))) c2State ≠ (c2State, true) := by
  have hfc : (importTree (some (jrtV (exportData c2State))) c2State).1.fixedCosts =
      varr [vobj [(("id"), vstr ("f1")), (("name"), vstr ("Luz")),
                  (("value"), vnull)]] := by with_unfolding_all rfl
  refine ⟨?_, hfc, ?_⟩
  · exact Reach.stepAddFixedCost initState (some ("Luz")) (some ("abc")) ("f1")
      c2State Reach.init (by with_unfolding_all rfl)
  · intro h
    have h2 : varr [vobj [(("id"), vstr ("f1")), (("name"), vstr ("Luz")),
        (("value"), vnull)]] =
      varr [vobj [(("id"), vstr ("f1")), (("name"), vstr ("Luz")),
        (("value"), vnum JNum.nan)]] := by
      rw [← hfc, h]
      rfl
    simp at h2

/-- C2 amended: for every reachable state all of whose stored numbers are
finite — no NaN and no ±Infinity, i.e. no handler or import ever recorded a
non-numeric amount (Number gives NaN) or an amount overflowing the double
range such as "1e999" (Number gives Infinity); JSON.stringify prints both
as null — importing the stringify/parse image of the exported document
reproduces exactly the exported state, whatever the state at import time
was. -/
theorem c2_export_import_roundtrip_amended (s t : StoreState) (h : Reach s)
    (hn : AllFiniteState s = true) :
    importTree (some (jrtV (exportData s))) t = (s, true) :=
  roundtrip_good s (reach_good s h) hn t

/-- Concrete instance of the amended C2: the round trip on the initial
state. -/
theorem c2_export_import_roundtrip_amended_witness :
    AllFiniteState initState = true ∧
    importTree (some (jrtV (exportData initState))) initState = (initState, true) :=
  ⟨by with_unfolding_all rfl,
   c2_export_import_roundtrip_amended initState initState Reach.init
     (by with_unfolding_all rfl)⟩

/-- The state reached by addFixedCost("Luz", "1e999"): Number("1e999")
overflows the double range, so the stored value is Infinity. -/
def cInfState : StoreState :=
  ⟨DEFAULT_USER, SAMPLE_CATEGORIES, varr [], varr [], varr [],
   varr [vobj [(("id"), vstr ("f2")), (("name"), vstr ("Luz")),
               (("value"), vnum JNum.inf)]]⟩

/-- An overflowing amount also breaks the round trip, which is why the
amended C2 requires finiteness and not merely NaN-freeness: the reachable
state recorded by addFixedCost("Luz", "1e999") stores Infinity and no NaN,
and JSON.stringify prints Infinity as null, so the re-imported state
differs from the exported one. -/
theorem overflow_roundtrip_fails :
    Reach cInfState ∧
    noNanV cInfState.fixedCosts = true ∧
    (importTree (some (jrtV (exportData cInfState))) cInfState).1.fixedCosts =
      varr [vobj [(("id"), vstr ("f2")), (("name"), vstr ("Luz")),
                  (("value"), vnull)]] ∧
    importTree (some (jrtV (exportData cInfState))) cInfState ≠ (cInfState, true) := by
  have hfc : (importTree (some (jrtV (exportData cInfState))) cInfState).1.fixedCosts =
      varr [vobj [(("id"), vstr ("f2")), (("name"), vstr ("Luz")),
                  (("value"), vnull)]] := by with_unfolding_all rfl
  refine ⟨?_, by with_unfolding_all rfl, hfc, ?_⟩
  · exact Reach.stepAddFixedCost initState (some ("Luz")) (some ("1e999")) ("f2")
      cInfState Reach.init (by with_unfolding_all rfl)
  · intro h
    have h2 : varr [vobj [(("id"), vstr ("f2")), (("name"), vstr ("Luz")),
        (("value"), vnull)]] =
      varr [vobj [(("id"), vstr ("f2")), (("name"), vstr ("Luz")),
        (("value"), vnum JNum.inf)]] := by
      rw [← hfc, h]
      rfl
    simp at h2

/-! Uniqueness of the generated ids (C7). -/

theorem filterIdNe_sublist (id : String) (xs ys : List JSV)
    (h : filterIdNe id xs = some ys) : ys.Sublist xs := by
  induction xs generalizing ys with
  | nil =>
    rw [filterIdNe] at h
    injection h with h
    subst h
    exact List.Sublist.refl []
  | cons g gs ih =>
    rw [filterIdNe] at h
    cases hg : jgetE g ("id") with
    | none =>
      rw [hg] at h
      exact Option.noConfusion h
    | some w =>
      rw [hg] at h
      cases hr : filterIdNe id gs with
      | none =>
        rw [hr] at h
        exact Option.noConfusion (show (none : Option (List JSV)) = some ys from h)
      | some r =>
        rw [hr] at h
        have h2 : some (if jsIsStr w id then r else g :: r) = some ys := h
        injection h2 with h2
        by_cases hm : jsIsStr w id = true
        · rw [if_pos hm] at h2
          subst h2
          exact (ih r hr).cons g
        · rw [if_neg hm] at h2
          subst h2
          exact (ih r hr).cons₂ g

theorem toggleOne_idKey (id : String) (g g2 : JSV) (h : toggleOne id g = some g2) :
    idKeyStr g2 = idKeyStr g := by
  cases g with
  | vnull => exact Option.noConfusion (show (none : Option JSV) = some g2 from h)
  | vundef => exact Option.noConfusion (show (none : Option JSV) = some g2 from h)
  | vbool b =>
    have h2 : some (vbool b) = some g2 := h
    injection h2 with h2
    rw [← h2]
  | vnum n =>
    have h2 : some (vnum n) = some g2 := h
    injection h2 with h2
    rw [← h2]
  | vstr t =>
    have h2 : some (vstr t) = some g2 := h
    injection h2 with h2
    rw [← h2]
  | varr xs =>
    have h2 : some (varr xs) = some g2 := h
    injection h2 with h2
    rw [← h2]
  | vobj fs =>
    have h2 : (if jsIsStr (lookupField fs ("id")) id = true then
        some (jsObjSpreadSet (vobj fs) ("bought")
          (vbool (!jsTruthy (jget (vobj fs) ("bought")))))
      else some (vobj fs)) = some g2 := h
    by_cases hm : jsIsStr (lookupField fs ("id")) id = true
    · rw [if_pos hm] at h2
      injection h2 with h2
      subst h2
      rw [idKeyStr, idKeyStr]
      have heq : jget (jsObjSpreadSet (vobj fs) ("bought")
          (vbool (!jsTruthy (jget (vobj fs) ("bought"))))) ("id") =
          jget (vobj fs) ("id") :=
        lookupField_setField_ne fs ("bought") ("id") _ (by decide)
      rw [heq]
    · rw [if_neg hm] at h2
      injection h2 with h2
      rw [← h2]

theorem mapToggle_ids (id : String) (xs ys : List JSV)
    (h : mapToggle id xs = some ys) : ys.map idKeyStr = xs.map idKeyStr := by
  induction xs generalizing ys with
  | nil =>
    rw [mapToggle] at h
    injection h with h
    subst h
    rfl
  | cons g gs ih =>
    rw [mapToggle] at h
    cases ht : toggleOne id g with
    | none =>
      rw [ht] at h
      exact Option.noConfusion h
    | some g2 =>
      rw [ht] at h
      cases hr : mapToggle id gs with
      | none =>
        rw [hr] at h
        exact Option.noConfusion (show (none : Option (List JSV)) = some ys from h)
      | some r =>
        rw [hr] at h
        have h2 : some (g2 :: r) = some ys := h
        injection h2 with h2
        subst h2
        rw [List.map_cons, List.map_cons, toggleOne_idKey id g g2 ht, ih r hr]

/-- The collection is an array (always true without imports). -/
def IdsArr (v : JSV) : Prop := ∃ xs, v = varr xs

/-- The invariant maintained by the in-app operations: the four item
collections are arrays and carry pairwise distinct ids. -/
def IdsInv (s : StoreState) : Prop :=
  IdsArr s.entries ∧ IdsArr s.expenses ∧ IdsArr s.goals ∧ IdsArr s.fixedCosts ∧
  UniqueIdsAll s

theorem nodup_of_sublist_ids (xs ys : List JSV) (hsub : ys.Sublist xs)
    (h : (xs.map idKeyStr).Nodup) : (ys.map idKeyStr).Nodup :=
  List.Nodup.sublist (hsub.map idKeyStr) h

theorem addEntry_ids (f : EntryForm) (i t : String) (s s2 : StoreState) (a : Bool)
    (he : addEntry f i t s = some (s2, a)) (hf : UidFresh i s) (hi : IdsInv s) :
    IdsInv s2 := by
  obtain ⟨⟨es, hes⟩, ⟨xs, hxs⟩, ⟨gs, hgs⟩, ⟨fc, hfc⟩, u1, u2, u3, u4⟩ := hi
  rw [addEntry] at he
  by_cases hv : (!jsTruthy (vnum (toNumberJS (vstr f.value))) ||
      !jsTruthy (vstr f.desc)) = true
  · rw [if_pos hv] at he
    injection he with he
    injection he with he ha
    subst he
    exact ⟨⟨es, hes⟩, ⟨xs, hxs⟩, ⟨gs, hgs⟩, ⟨fc, hfc⟩, u1, u2, u3, u4⟩
  · rw [if_neg hv] at he
    by_cases ht : f.type = ("income")
    · rw [if_pos ht, hes] at he
      have hsp : jsSpreadCons (entryItem f (toNumberJS (vstr f.value)) i t) (varr es) =
          some (varr (entryItem f (toNumberJS (vstr f.value)) i t :: es)) := rfl
      rw [hsp, Option.map_some'] at he
      injection he with he
      rw [Prod.mk.injEq] at he
      obtain ⟨hs2, ha⟩ := he
      subst hs2
      refine ⟨⟨_, rfl⟩, ⟨xs, hxs⟩, ⟨gs, hgs⟩, ⟨fc, hfc⟩, ?_, u2, u3, u4⟩
      show (usedIds (varr (entryItem f (toNumberJS (vstr f.value)) i t :: es))).Nodup
      show (idKeyStr (entryItem f (toNumberJS (vstr f.value)) i t) ::
        es.map idKeyStr).Nodup
      refine List.nodup_cons.mpr ⟨?_, ?_⟩
      · show (i : String) ∉ es.map idKeyStr
        have := hf.1
        rw [hes] at this
        exact this
      · have := u1
        rw [hes] at this
        exact this
    · rw [if_neg ht, hxs] at he
      have hsp : jsSpreadCons (entryItem f (toNumberJS (vstr f.value)) i t) (varr xs) =
          some (varr (entryItem f (toNumberJS (vstr f.value)) i t :: xs)) := rfl
      rw [hsp, Option.map_some'] at he
      injection he with he
      rw [Prod.mk.injEq] at he
      obtain ⟨hs2, ha⟩ := he
      subst hs2
      refine ⟨⟨es, hes⟩, ⟨_, rfl⟩, ⟨gs, hgs⟩, ⟨fc, hfc⟩, u1, ?_, u3, u4⟩
      show (idKeyStr (entryItem f (toNumberJS (vstr f.value)) i t) ::
        xs.map idKeyStr).Nodup
      refine List.nodup_cons.mpr ⟨?_, ?_⟩
      · show (i : String) ∉ xs.map idKeyStr
        have := hf.2.1
        rw [hxs] at this
        exact this
      · have := u2
        rw [hxs] at this
        exact this

theorem removeItem_ids (id kind : String) (c : Bool) (s s2 : StoreState)
    (he : removeItem id kind c s = some s2) (hi : IdsInv s) : IdsInv s2 := by
  obtain ⟨⟨es, hes⟩, ⟨xs, hxs⟩, ⟨gs, hgs⟩, ⟨fc, hfc⟩, u1, u2, u3, u4⟩ := hi
  rw [removeItem] at he
  by_cases hc : (!c) = true
  · rw [if_pos hc] at he
    injection he with he
    subst he
    exact ⟨⟨es, hes⟩, ⟨xs, hxs⟩, ⟨gs, hgs⟩, ⟨fc, hfc⟩, u1, u2, u3, u4⟩
  · rw [if_neg hc] at he
    by_cases hk : kind = ("income")
    · subst hk
      rw [hes] at he
      have hj : jsFilterIdNe id (varr es) = Option.map varr (filterIdNe id es) := rfl
      rw [hj] at he
      cases hr : filterIdNe id es with
      | none =>
        rw [hr] at he
        exact Option.noConfusion (show (none : Option StoreState) = some s2 from he)
      | some ys =>
        rw [hr] at he
        have he2 : some ({ s with entries := varr ys } : StoreState) = some s2 := he
        injection he2 with he2
        subst he2
        refine ⟨⟨ys, rfl⟩, ⟨xs, hxs⟩, ⟨gs, hgs⟩, ⟨fc, hfc⟩, ?_, u2, u3, u4⟩
        show (ys.map idKeyStr).Nodup
        refine nodup_of_sublist_ids es ys (filterIdNe_sublist id es ys hr) ?_
        have := u1
        rw [hes] at this
        exact this
    · rw [if_neg hk] at he
      by_cases hk2 : kind = ("expense")
      · subst hk2
        have he2 : Option.map (fun es2 => ({ s with expenses := es2 } : StoreState))
            (jsFilterIdNe id s.expenses) = some s2 := he
        rw [hxs] at he2
        have hj : jsFilterIdNe id (varr xs) = Option.map varr (filterIdNe id xs) := rfl
        rw [hj] at he2
        cases hr : filterIdNe id xs with
        | none =>
          rw [hr] at he2
          exact Option.noConfusion (show (none : Option StoreState) = some s2 from he2)
        | some ys =>
          rw [hr] at he2
          have he3 : some ({ s with expenses := varr ys } : StoreState) = some s2 := he2
          injection he3 with he3
          subst he3
          refine ⟨⟨es, hes⟩, ⟨ys, rfl⟩, ⟨gs, hgs⟩, ⟨fc, hfc⟩, u1, ?_, u3, u4⟩
          show (ys.map idKeyStr).Nodup
          refine nodup_of_sublist_ids xs ys (filterIdNe_sublist id xs ys hr) ?_
          have := u2
          rw [hxs] at this
          exact this
      · have he2 : (if kind = ("expense") then
            Option.map (fun xs2 => ({ s with expenses := xs2 } : StoreState))
              (jsFilterIdNe id s.expenses)
          else some s) = some s2 := he
        rw [if_neg hk2] at he2
        injection he2 with he2
        subst he2
        exact ⟨⟨es, hes⟩, ⟨xs, hxs⟩, ⟨gs, hgs⟩, ⟨fc, hfc⟩, u1, u2, u3, u4⟩

theorem addGoal_ids (gf : GoalForm) (i : String) (s s2 : StoreState) (a : Bool)
    (he : addGoal gf i s = some (s2, a)) (hf : UidFresh i s) (hi : IdsInv s) :
    IdsInv s2 := by
  obtain ⟨⟨es, hes⟩, ⟨xs, hxs⟩, ⟨gs, hgs⟩, ⟨fc, hfc⟩, u1, u2, u3, u4⟩ := hi
  rw [addGoal] at he
  by_cases hv : (!jsTruthy (vstr gf.name) ||
      !jsTruthy (vnum (toNumberJS (vstr gf.price)))) = true
  · rw [if_pos hv] at he
    injection he with he
    injection he with he ha
    subst he
    exact ⟨⟨es, hes⟩, ⟨xs, hxs⟩, ⟨gs, hgs⟩, ⟨fc, hfc⟩, u1, u2, u3, u4⟩
  · rw [if_neg hv, hgs] at he
    have hsp : jsSpreadCons (goalItem gf (toNumberJS (vstr gf.price)) i) (varr gs) =
        some (varr (goalItem gf (toNumberJS (vstr gf.price)) i :: gs)) := rfl
    rw [hsp, Option.map_some'] at he
    injection he with he
    rw [Prod.mk.injEq] at he
    obtain ⟨hs2, ha⟩ := he
    subst hs2
    refine ⟨⟨es, hes⟩, ⟨xs, hxs⟩, ⟨_, rfl⟩, ⟨fc, hfc⟩, u1, u2, ?_, u4⟩
    show (idKeyStr (goalItem gf (toNumberJS (vstr gf.price)) i) ::
      gs.map idKeyStr).Nodup
    refine List.nodup_cons.mpr ⟨?_, ?_⟩
    · show (i : String) ∉ gs.map idKeyStr
      have := hf.2.2.1
      rw [hgs] at this
      exact this
    · have := u3
      rw [hgs] at this
      exact this

theorem toggleGoal_ids (id : String) (s s2 : StoreState)
    (he : toggleGoal id s = some s2) (hi : IdsInv s) : IdsInv s2 := by
  obtain ⟨⟨es, hes⟩, ⟨xs, hxs⟩, ⟨gs, hgs⟩, ⟨fc, hfc⟩, u1, u2, u3, u4⟩ := hi
  rw [toggleGoal] at he
  rw [hgs] at he
  have he2 : Option.map (fun ys => ({ s with goals := varr ys } : StoreState))
      (mapToggle id gs) = some s2 := he
  cases hm : mapToggle id gs with
  | none =>
    rw [hm] at he2
    exact Option.noConfusion (show (none : Option StoreState) = some s2 from he2)
  | some ys =>
    rw [hm, Option.map_some'] at he2
    injection he2 with he2
    subst he2
    refine ⟨⟨es, hes⟩, ⟨xs, hxs⟩, ⟨ys, rfl⟩, ⟨fc, hfc⟩, u1, u2, ?_, u4⟩
    show (ys.map idKeyStr).Nodup
    rw [mapToggle_ids id gs ys hm]
    have := u3
    rw [hgs] at this
    exact this

theorem removeGoalOp_ids (id : String) (s s2 : StoreState)
    (he : removeGoalOp id s = some s2) (hi : IdsInv s) : IdsInv s2 := by
  obtain ⟨⟨es, hes⟩, ⟨xs, hxs⟩, ⟨gs, hgs⟩, ⟨fc, hfc⟩, u1, u2, u3, u4⟩ := hi
  rw [removeGoalOp, hgs] at he
  have hj : jsFilterIdNe id (varr gs) = Option.map varr (filterIdNe id gs) := rfl
  rw [hj] at he
  cases hr : filterIdNe id gs with
  | none =>
    rw [hr] at he
    exact Option.noConfusion (show (none : Option StoreState) = some s2 from he)
  | some ys =>
    rw [hr] at he
    have he2 : some ({ s with goals := varr ys } : StoreState) = some s2 := he
    injection he2 with he2
    subst he2
    refine ⟨⟨es, hes⟩, ⟨xs, hxs⟩, ⟨ys, rfl⟩, ⟨fc, hfc⟩, u1, u2, ?_, u4⟩
    show (ys.map idKeyStr).Nodup
    refine nodup_of_sublist_ids gs ys (filterIdNe_sublist id gs ys hr) ?_
    have := u3
    rw [hgs] at this
    exact this

theorem removeFixedCostOp_ids (id : String) (s s2 : StoreState)
    (he : removeFixedCostOp id s = some s2) (hi : IdsInv s) : IdsInv s2 := by
  obtain ⟨⟨es, hes⟩, ⟨xs, hxs⟩, ⟨gs, hgs⟩, ⟨fc, hfc⟩, u1, u2, u3, u4⟩ := hi
  rw [removeFixedCostOp, hfc] at he
  have hj : jsFilterIdNe id (varr fc) = Option.map varr (filterIdNe id fc) := rfl
  rw [hj] at he
  cases hr : filterIdNe id fc with
  | none =>
    rw [hr] at he
    exact Option.noConfusion (show (none : Option StoreState) = some s2 from he)
  | some ys =>
    rw [hr] at he
    have he2 : some ({ s with fixedCosts := varr ys } : StoreState) = some s2 := he
    injection he2 with he2
    subst he2
    refine ⟨⟨es, hes⟩, ⟨xs, hxs⟩, ⟨gs, hgs⟩, ⟨ys, rfl⟩, u1, u2, u3, ?_⟩
    show (ys.map idKeyStr).Nodup
    refine nodup_of_sublist_ids fc ys (filterIdNe_sublist id fc ys hr) ?_
    have := u4
    rw [hfc] at this
    exact this

theorem addFixedCost_ids (n v : Option String) (i : String) (s s2 : StoreState)
    (he : addFixedCost n v i s = some s2) (hf : UidFresh i s) (hi : IdsInv s) :
    IdsInv s2 := by
  obtain ⟨⟨es, hes⟩, ⟨xs, hxs⟩, ⟨gs, hgs⟩, ⟨fc, hfc⟩, u1, u2, u3, u4⟩ := hi
  cases n with
  | none =>
    have he2 : some s = some s2 := he
    injection he2 with he2
    subst he2
    exact ⟨⟨es, hes⟩, ⟨xs, hxs⟩, ⟨gs, hgs⟩, ⟨fc, hfc⟩, u1, u2, u3, u4⟩
  | some nm =>
    cases v with
    | none =>
      have he2 : some s = some s2 := he
      injection he2 with he2
      subst he2
      exact ⟨⟨es, hes⟩, ⟨xs, hxs⟩, ⟨gs, hgs⟩, ⟨fc, hfc⟩, u1, u2, u3, u4⟩
    | some tv =>
      have he2 : (if nm = ("") || tv = ("") then some s else
          (jsSpreadCons (vobj [(("id"), vstr i), (("name"), vstr nm),
            (("value"), vnum (toNumberJS (vstr tv)))]) s.fixedCosts).map
            (fun fc2 => { s with fixedCosts := fc2 })) = some s2 := he
      by_cases hz : (nm = ("") || tv = ("")) = true
      · rw [if_pos hz] at he2
        injection he2 with he2
        subst he2
        exact ⟨⟨es, hes⟩, ⟨xs, hxs⟩, ⟨gs, hgs⟩, ⟨fc, hfc⟩, u1, u2, u3, u4⟩
      · rw [if_neg hz, hfc] at he2
        have hsp : jsSpreadCons (vobj [(("id"), vstr i), (("name"), vstr nm),
            (("value"), vnum (toNumberJS (vstr tv)))]) (varr fc) =
            some (varr (vobj [(("id"), vstr i), (("name"), vstr nm),
              (("value"), vnum (toNumberJS (vstr tv)))] :: fc)) := rfl
        rw [hsp, Option.map_some'] at he2
        injection he2 with he2
        subst he2
        refine ⟨⟨es, hes⟩, ⟨xs, hxs⟩, ⟨gs, hgs⟩, ⟨_, rfl⟩, u1, u2, u3, ?_⟩
        show (idKeyStr (vobj [(("id"), vstr i), (("name"), vstr nm),
          (("value"), vnum (toNumberJS (vstr tv)))]) :: fc.map idKeyStr).Nodup
        refine List.nodup_cons.mpr ⟨?_, ?_⟩
        · show (i : String) ∉ fc.map idKeyStr
          have := hf.2.2.2
          rw [hfc] at this
          exact this
        · have := u4
          rw [hfc] at this
          exact this

theorem addCategory_ids (c : Option String) (s s2 : StoreState)
    (he : addCategory c s = some s2) (hi : IdsInv s) : IdsInv s2 := by
  obtain ⟨⟨es, hes⟩, ⟨xs, hxs⟩, ⟨gs, hgs⟩, ⟨fc, hfc⟩, u1, u2, u3, u4⟩ := hi
  cases c with
  | none =>
    have he2 : some s = some s2 := he
    injection he2 with he2
    subst he2
    exact ⟨⟨es, hes⟩, ⟨xs, hxs⟩, ⟨gs, hgs⟩, ⟨fc, hfc⟩, u1, u2, u3, u4⟩
  | some cat =>
    have he2 : (if cat = ("") then some s else
        (jsSpreadCons (vstr cat) s.categories).map
          (fun cs => { s with categories := cs })) = some s2 := he
    by_cases hz : cat = ("")
    · rw [if_pos hz] at he2
      injection he2 with he2
      subst he2
      exact ⟨⟨es, hes⟩, ⟨xs, hxs⟩, ⟨gs, hgs⟩, ⟨fc, hfc⟩, u1, u2, u3, u4⟩
    · rw [if_neg hz] at he2
      cases hsp : jsSpreadCons (vstr cat) s.categories with
      | none =>
        rw [hsp] at he2
        exact Option.noConfusion he2
      | some c2 =>
        rw [hsp, Option.map_some'] at he2
        injection he2 with he2
        subst he2
        exact ⟨⟨es, hes⟩, ⟨xs, hxs⟩, ⟨gs, hgs⟩, ⟨fc, hfc⟩, u1, u2, u3, u4⟩

theorem setProfileName_ids (n : Option String) (s : StoreState) (hi : IdsInv s) :
    IdsInv (setProfileName n s) := by
  obtain ⟨⟨es, hes⟩, ⟨xs, hxs⟩, ⟨gs, hgs⟩, ⟨fc, hfc⟩, u1, u2, u3, u4⟩ := hi
  cases n with
  | none => exact ⟨⟨es, hes⟩, ⟨xs, hxs⟩, ⟨gs, hgs⟩, ⟨fc, hfc⟩, u1, u2, u3, u4⟩
  | some nm =>
    show IdsInv (if nm = ("") then s else
      { s with user := jsObjSpreadSet s.user ("name") (vstr nm) })
    by_cases hz : nm = ("")
    · rw [if_pos hz]
      exact ⟨⟨es, hes⟩, ⟨xs, hxs⟩, ⟨gs, hgs⟩, ⟨fc, hfc⟩, u1, u2, u3, u4⟩
    · rw [if_neg hz]
      exact ⟨⟨es, hes⟩, ⟨xs, hxs⟩, ⟨gs, hgs⟩, ⟨fc, hfc⟩, u1, u2, u3, u4⟩

theorem reachU_idsInv (s : StoreState) (h : ReachU s) : IdsInv s := by
  induction h with
  | init =>
    exact ⟨⟨[], rfl⟩, ⟨[], rfl⟩, ⟨[], rfl⟩, ⟨[], rfl⟩,
      List.nodup_nil, List.nodup_nil, List.nodup_nil, List.nodup_nil⟩
  | stepAddEntry s f i t s2 a h hf he ih => exact addEntry_ids f i t s s2 a he hf ih
  | stepRemoveItem s id kind c s2 h he ih => exact removeItem_ids id kind c s s2 he ih
  | stepAddGoal s gf i s2 a h hf he ih => exact addGoal_ids gf i s s2 a he hf ih
  | stepToggleGoal s id s2 h he ih => exact toggleGoal_ids id s s2 he ih
  | stepRemoveGoal s id s2 h he ih => exact removeGoalOp_ids id s s2 he ih
  | stepAddFixedCost s n v i s2 h hf he ih => exact addFixedCost_ids n v i s s2 he hf ih
  | stepRemoveFixedCost s id s2 h he ih => exact removeFixedCostOp_ids id s s2 he ih
  | stepAddCategory s c s2 h he ih => exact addCategory_ids c s s2 he ih
  | stepSetName s n h ih => exact setProfileName_ids n s ih

/-- The document holding two entries with the same id "x". -/
def c7Doc : JSV :=
  vobj [(("entries"), varr
    [vobj [(("id"), vstr ("x")), (("value"), vnum (JNum.fin 1))],
     vobj [(("id"), vstr ("x")), (("value"), vnum (JNum.fin 2))]])]

/-- The state reached by importing that document. -/
def c7DupState : StoreState :=
  ⟨DEFAULT_USER, SAMPLE_CATEGORIES,
   varr [vobj [(("id"), vstr ("x")), (("value"), vnum (JNum.fin 1))],
         vobj [(("id"), vstr ("x")), (("value"), vnum (JNum.fin 2))]],
   varr [], varr [], varr []⟩

/-- C7 counterexample: importing a document whose entries share the id "x"
is a documented operation and reaches a state where the id is NOT unique
within the entries collection — nothing enforces uniqueness on import. -/
theorem c7_unique_ids_counterexample :
    Reach c7DupState ∧
    usedIds c7DupState.entries = [("x"), ("x")] ∧
    ¬ UniqueIdsAll c7DupState := by
  refine ⟨?_, by with_unfolding_all rfl, ?_⟩
  · have h := Reach.stepImport initState c7Doc Reach.init (by with_unfolding_all rfl)
    have he : (importTree (some c7Doc) initState).1 = c7DupState := by
      with_unfolding_all rfl
    rw [he] at h
    exact h
  · intro hcon
    have h1 := hcon.1
    rw [(by with_unfolding_all rfl :
      usedIds c7DupState.entries = [("x"), ("x")])] at h1
    simp at h1

/-- C7 amended: along the in-app operations (no import), with every uid
generation returning an id not yet present, the id is unique within each
owning collection; toggling preserves all ids (never reassigns them) and
removal only deletes. -/
theorem c7_unique_ids_amended (s : StoreState) (h : ReachU s) : UniqueIdsAll s :=
  (reachU_idsInv s h).2.2.2.2

/-- The intermediate state of the C7 witness: one goal added. -/
def c7MidState : StoreState :=
  ⟨DEFAULT_USER, SAMPLE_CATEGORIES, varr [], varr [],
   varr [goalItem ⟨("Bike"), ("1500"), ("Alta")⟩ (JNum.fin 1500) ("g1")], varr []⟩

/-- The final state of the C7 witness: one goal and one fixed cost. -/
def c7WitnessState : StoreState :=
  ⟨DEFAULT_USER, SAMPLE_CATEGORIES, varr [], varr [],
   varr [goalItem ⟨("Bike"), ("1500"), ("Alta")⟩ (JNum.fin 1500) ("g1")],
   varr [vobj [(("id"), vstr ("f1")), (("name"), vstr ("Luz")),
               (("value"), vnum (JNum.fin 300))]]⟩

/-- Concrete instance of the amended C7: after adding a goal and a fixed
cost with fresh uids, every collection holds pairwise distinct ids. -/
theorem c7_unique_ids_amended_witness :
    UniqueIdsAll c7WitnessState ∧
    usedIds c7WitnessState.goals = [("g1")] ∧
    usedIds c7WitnessState.fixedCosts = [("f1")] := by
  have h1 : ReachU c7MidState :=
    ReachU.stepAddGoal initState ⟨("Bike"), ("1500"), ("Alta")⟩ ("g1") c7MidState
      false ReachU.init ⟨by decide, by decide, by decide, by decide⟩
      (by with_unfolding_all rfl)
  have h2 : ReachU c7WitnessState :=
    ReachU.stepAddFixedCost c7MidState (some ("Luz")) (some ("300")) ("f1")
      c7WitnessState h1 ⟨by decide, by decide, by decide, by decide⟩
      (by with_unfolding_all rfl)
  exact ⟨c7_unique_ids_amended c7WitnessState h2,
    by with_unfolding_all rfl, by with_unfolding_all rfl⟩

/-- Concrete instance of C10: a document with `user: null` and `entries: 0`
imports (and loads) with the default profile and an empty entries list. -/
theorem c10_falsy_field_defaults_witness :
    (importTree (some (vobj [(("user"), vnull), (("entries"), vnum (JNum.fin 0))]))
      initState).1.user = DEFAULT_USER ∧
    (importTree (some (vobj [(("user"), vnull), (("entries"), vnum (JNum.fin 0))]))
      initState).1.entries = varr [] ∧
    (importTree (some (vobj [(("user"), vnull), (("entries"), vnum (JNum.fin 0))]))
      initState).2 = true ∧
    load (some ("\x7b\"user\":null,\"entries\":0\x7d")) initState =
      (importTree (some (vobj [(("user"), vnull), (("entries"), vnum (JNum.fin 0))]))
        initState).1 := by
  have h := c10_falsy_field_defaults
    [(("user"), vnull), (("entries"), vnum (JNum.fin 0))] initState
  exact ⟨h.2.1 (by with_unfolding_all rfl),
         h.2.2.2.1 (by with_unfolding_all rfl),
         h.1,
         h.2.2.2.2.2.2.2 ("\x7b\"user\":null,\"entries\":0\x7d") (by decide)
           (by with_unfolding_all rfl)⟩

end Myfinance
